import Mathlib

/-!
Verification development for the Inkwell SDK core: the Lua access-control
engine (`lua-process/access_control.lua`), the permission registry
(`lua-process/blog_registry.lua`) and the blog-process role-update handler
embedded in `src/core/browser-deploy.ts`.

The Lua modules are shallowly embedded: Lua tables become association
lists, the ambient clock `os.time()` becomes an explicit `now : Nat`
argument per top-level call, and every operation returns the new state
together with the `(success, error)` pair the Lua function returns.
Branches of the source that would raise a Lua runtime error on states
unreachable through the public operations are noted in doc comments at
the definition where they occur.
-/

namespace Inkwell

/-- Key of a Lua table.  Lua distinguishes the number `1` from the string
`"1"`; `ipairs` probes the *numeric* keys `1, 2, …`, so a table that has
only ever been written through string keys yields nothing to `ipairs`. -/
inductive LuaKey where
  | num : Nat → LuaKey
  | str : String → LuaKey
deriving DecidableEq, Repr

/-- Lookup in a mixed-key Lua table (association list). -/
def tget {V : Type} : List (LuaKey × V) → LuaKey → Option V
  | [], _ => none
  | (k', v) :: rest, k => if k' = k then some v else tget rest k

/-- Assignment `t[k] = v` in a mixed-key Lua table. -/
def tset {V : Type} : List (LuaKey × V) → LuaKey → V → List (LuaKey × V)
  | [], k, v => [(k, v)]
  | (k', v') :: rest, k, v =>
      if k' = k then (k, v) :: rest else (k', v') :: tset rest k v

/-- Lookup in a string-keyed Lua table. -/
def sget {V : Type} : List (String × V) → String → Option V
  | [], _ => none
  | (k', v) :: rest, k => if k' = k then some v else sget rest k

/-- Assignment `t[k] = v` in a string-keyed Lua table. -/
def sset {V : Type} : List (String × V) → String → V → List (String × V)
  | [], k, v => [(k, v)]
  | (k', v') :: rest, k, v =>
      if k' = k then (k, v) :: rest else (k', v') :: sset rest k v

/-- Deletion `t[k] = nil` in a string-keyed Lua table. -/
def sdel {V : Type} : List (String × V) → String → List (String × V)
  | [], _ => []
  | (k', v) :: rest, k => if k' = k then sdel rest k else (k', v) :: sdel rest k

/-- `AccessControl.ROLES.DEFAULT_ADMIN`, the root role. -/
def DEFAULT_ADMIN_ROLE : String := "DEFAULT_ADMIN_ROLE"

/-- `AccessControl.ROLES.EDITOR`. -/
def EDITOR_ROLE : String := "EDITOR_ROLE"

namespace BlogRegistry

/-- Value stored at a `(wallet, blog)` pair: `{ roles = {...}, last_updated = timestamp }`. -/
structure RegEntry where
  roles : List String
  last_updated : Nat
deriving DecidableEq, Repr

/-- Registry storage from `blog_registry.lua`:
`wallet_blogs : wallet → blog_id → entry` and its inverse
`blog_wallets : blog_id → wallet → entry`. -/
structure RegState where
  wallet_blogs : List (String × List (String × RegEntry))
  blog_wallets : List (String × List (String × RegEntry))
deriving DecidableEq, Repr

/-- The initial (empty) registry. -/
def empty : RegState := ⟨[], []⟩

def VALID_ROLES : List String := [DEFAULT_ADMIN_ROLE, EDITOR_ROLE]

/-- `validate_wallet`: the wallet must be a non-empty string (the
`type(wallet) ~= "string"` and `not wallet` checks are discharged by typing). -/
def validate_wallet (wallet : String) : Bool × Option String :=
  if wallet = "" then (false, some "Invalid wallet address") else (true, none)

/-- `validate_blog_id`: the blog id must be a non-empty string. -/
def validate_blog_id (blog_id : String) : Bool × Option String :=
  if blog_id = "" then (false, some "Invalid blog ID") else (true, none)

/-- `validate_role`: membership in the fixed `VALID_ROLES` allow-list. -/
def validate_role (role : String) : Bool × Option String :=
  if VALID_ROLES.contains role then (true, none)
  else (false, some ("Invalid role: " ++ role))

/-- `validate_roles`: every element must pass `validate_role`; the error of
the first invalid role is reported (the `type(roles) ~= "table"` check is
discharged by typing).  An empty list passes. -/
def validate_roles : List String → Bool × Option String
  | [] => (true, none)
  | r :: rest =>
      let v := validate_role r
      if !v.1 then (false, v.2) else validate_roles rest

/-- `register_wallet_permissions(wallet, blog_id, roles)`: validates, then
upserts the entry `{roles, last_updated = now}` into both indices,
initialising missing outer tables. -/
def register_wallet_permissions (s : RegState) (wallet blog_id : String)
    (roles : List String) (now : Nat) : RegState × Bool × Option String :=
  let vw := validate_wallet wallet
  if !vw.1 then (s, false, vw.2) else
  let vb := validate_blog_id blog_id
  if !vb.1 then (s, false, vb.2) else
  let vr := validate_roles roles
  if !vr.1 then (s, false, vr.2) else
  let wb := (sget s.wallet_blogs wallet).getD []
  let bw := (sget s.blog_wallets blog_id).getD []
  let entry : RegEntry := ⟨roles, now⟩
  ({ wallet_blogs := sset s.wallet_blogs wallet (sset wb blog_id entry),
     blog_wallets := sset s.blog_wallets blog_id (sset bw wallet entry) },
   true, none)

/-- One side of `remove_wallet_permissions`: delete the inner key, then
drop the outer entry entirely when the inner table became empty
(`next(t) == nil`).  The source repeats this block verbatim for each
index; it is factored here so both sides share one definition. -/
def remove_side (idx : List (String × List (String × RegEntry))) (k1 k2 : String) :
    List (String × List (String × RegEntry)) :=
  match sget idx k1 with
  | some t =>
      let t' := sdel t k2
      if t'.isEmpty then sdel idx k1 else sset idx k1 t'
  | none => idx

/-- `remove_wallet_permissions(wallet, blog_id)`: deletes the pair from
both indices with empty-table cleanup; succeeds even if absent. -/
def remove_wallet_permissions (s : RegState) (wallet blog_id : String) :
    RegState × Bool × Option String :=
  let vw := validate_wallet wallet
  if !vw.1 then (s, false, vw.2) else
  let vb := validate_blog_id blog_id
  if !vb.1 then (s, false, vb.2) else
  ({ wallet_blogs := remove_side s.wallet_blogs wallet blog_id,
     blog_wallets := remove_side s.blog_wallets blog_id wallet },
   true, none)

/-- `update_wallet_roles(wallet, blog_id, roles)`: validates the roles
first, then removes the pair when `#roles == 0`, otherwise registers. -/
def update_wallet_roles (s : RegState) (wallet blog_id : String)
    (roles : List String) (now : Nat) : RegState × Bool × Option String :=
  let vr := validate_roles roles
  if !vr.1 then (s, false, vr.2)
  else if roles.length = 0 then remove_wallet_permissions s wallet blog_id
  else register_wallet_permissions s wallet blog_id roles now

/-- Reply entry of `get_wallet_blogs`. -/
structure BlogPermissionEntry where
  blog_id : String
  roles : List String
  last_updated : Nat
deriving DecidableEq, Repr

/-- `get_wallet_blogs(wallet)`: snapshot of the wallet side of the index. -/
def get_wallet_blogs (s : RegState) (wallet : String) :
    Option (List BlogPermissionEntry) × Option String :=
  let vw := validate_wallet wallet
  if !vw.1 then (none, vw.2)
  else
    let t := (sget s.wallet_blogs wallet).getD []
    (some (t.map (fun p => ⟨p.1, p.2.roles, p.2.last_updated⟩)), none)

/-- The registry's mutating operations, for quantifying over operation
sequences. -/
inductive RegOp where
  | register (wallet blog_id : String) (roles : List String) (now : Nat)
  | remove (wallet blog_id : String)
  | update (wallet blog_id : String) (roles : List String) (now : Nat)

/-- State effect of one registry operation. -/
def reg_apply (s : RegState) : RegOp → RegState
  | .register w b roles now => (register_wallet_permissions s w b roles now).1
  | .remove w b => (remove_wallet_permissions s w b).1
  | .update w b roles now => (update_wallet_roles s w b roles now).1

/-- Registry state after a sequence of operations from the empty registry. -/
def reg_run (ops : List RegOp) : RegState := ops.foldl reg_apply empty

/-- A registry state reachable by some operation sequence. -/
def RegReach (s : RegState) : Prop := ∃ ops, reg_run ops = s

/-- Lookup of the stored entry for a pair of keys in one index. -/
def pair_lookup (idx : List (String × List (String × RegEntry))) (k1 k2 : String) :
    Option RegEntry :=
  match sget idx k1 with
  | some t => sget t k2
  | none => none

/-- The two indices are exact transposes of each other. -/
def Mirror (s : RegState) : Prop :=
  ∀ w b, pair_lookup s.wallet_blogs w b = pair_lookup s.blog_wallets b w

/-- No stored pair, in either index, carries an empty roles set. -/
def NoEmptyRoles (s : RegState) : Prop :=
  (∀ w b e, pair_lookup s.wallet_blogs w b = some e → e.roles ≠ []) ∧
  (∀ b w e, pair_lookup s.blog_wallets b w = some e → e.roles ≠ [])

/-- Holds of every register operation whose roles list is non-empty (and
of every remove/update). -/
def reg_op_nonempty_roles : RegOp → Prop
  | .register _ _ roles _ => roles ≠ []
  | .remove _ _ => True
  | .update _ _ _ _ => True

/-- Every inner table of the wallet index has duplicate-free keys. -/
def WalletKeysNodup (s : RegState) : Prop :=
  ∀ w t, sget s.wallet_blogs w = some t → (t.map Prod.fst).Nodup

end BlogRegistry

/-- One step of Lua `ipairs`: probe `t[i]`, `t[i+1]`, … (numeric keys)
until the first `nil`. -/
def ipairs_from (t : List (LuaKey × Bool)) : Nat → Nat → List Bool
  | 0, _ => []
  | fuel + 1, i =>
      match tget t (LuaKey.num i) with
      | some v => v :: ipairs_from t fuel (i + 1)
      | none => []

/-- Lua `ipairs(t)` yields the values `t[1], t[2], …` until the first
missing integer key.  Fuel `t.length + 1` suffices because a table with
`n` entries holds at most `n` distinct integer keys. -/
def lua_ipairs (t : List (LuaKey × Bool)) : List Bool :=
  ipairs_from t (t.length + 1) 1

namespace AccessControl

def NOT_INITIALIZED : String := "AccessControl not initialized"

def INVALID_ACCOUNT : String := "Invalid account"

def INVALID_ROLE : String := "Invalid role"

def ROLE_EXISTS : String := "Role already exists"

def ROLE_NOT_EXISTS : String := "Role does not exist"

def ACCOUNT_HAS_ROLE : String := "Account already has role"

def ACCOUNT_NO_ROLE : String := "Account does not have role"

def CANNOT_REMOVE_LAST_ADMIN : String := "Cannot remove last DEFAULT_ADMIN"

/-- `string.format(ERROR_MESSAGES.NOT_ADMIN, caller, role)`. -/
def NOT_ADMIN (caller role : String) : String :=
  "AccessControl: account " ++ caller ++ " is not admin of role " ++ role

/-- `string.format(ERROR_MESSAGES.MISSING_ROLE, caller, role)`. -/
def MISSING_ROLE (caller role : String) : String :=
  "AccessControl: account " ++ caller ++ " is missing role " ++ role

/-- An entry of the `events` log; `log_role_update` entries leave
`account` empty, `log_role_account` entries leave the admin fields empty. -/
structure ACEvent where
  etype : String
  role : String
  account : Option String
  old_admin_role : Option String
  new_admin_role : Option String
  caller : String
  timestamp : Nat
deriving DecidableEq, Repr

/-- The module-level mutable state of `access_control.lua`.  The `roles`
table is keyed by `LuaKey` because `get_all_roles` and `get_user_roles`
traverse it with `ipairs`, whose behaviour depends on which *numeric*
keys exist. -/
structure ACState where
  is_initialized : Bool
  roles : List (LuaKey × Bool)
  role_members : List (String × List (String × Bool))
  role_admins : List (String × String)
  is_log_enabled : Bool
  events : List ACEvent
deriving DecidableEq, Repr

/-- The state before `init`: nothing declared, logging enabled. -/
def startState : ACState := ⟨false, [], [], [], true, []⟩

def log_role_update (s : ACState) (caller message role : String)
    (old_admin new_admin : Option String) (now : Nat) : ACState :=
  if s.is_log_enabled then
    { s with events := s.events ++ [⟨message, role, none, old_admin, new_admin, caller, now⟩] }
  else s

def log_role_account (s : ACState) (caller message role account : String)
    (now : Nat) : ACState :=
  if s.is_log_enabled then
    { s with events := s.events ++ [⟨message, role, some account, none, none, caller, now⟩] }
  else s

def check_initialized (s : ACState) : Bool × Option String :=
  if !s.is_initialized then (false, some NOT_INITIALIZED) else (true, none)

/-- `t[role] == true` on a roles table. -/
def roles_has (roles : List (LuaKey × Bool)) (role : String) : Bool :=
  match tget roles (LuaKey.str role) with
  | some true => true
  | _ => false

/-- `roles[role] == true`. -/
def role_exists (s : ACState) (role : String) : Bool :=
  roles_has s.roles role

/-- `validate_account`: non-empty string (nil/type checks typed away). -/
def validate_account (account : String) : Bool × Option String :=
  if account = "" then (false, some INVALID_ACCOUNT) else (true, none)

/-- `validate_role`: non-empty string that is declared. -/
def validate_role (s : ACState) (role : String) : Bool × Option String :=
  if role = "" then (false, some INVALID_ROLE)
  else if !role_exists s role then (false, some ROLE_NOT_EXISTS)
  else (true, none)

def validate_inputs (s : ACState) (account role : String) : Bool × Option String :=
  let ci := check_initialized s
  if !ci.1 then (false, ci.2) else
  let va := validate_account account
  if !va.1 then (false, va.2) else
  let vr := validate_role s role
  if !vr.1 then (false, vr.2) else
  (true, none)

/-- `t[account] == true` on a member table. -/
def tbl_mem (t : List (String × Bool)) (account : String) : Bool :=
  match sget t account with
  | some true => true
  | _ => false

/-- The raw membership read
`role_members[role] and role_members[role][account] == true`. -/
def mem_lookup (s : ACState) (role account : String) : Bool :=
  match sget s.role_members role with
  | some t => tbl_mem t account
  | none => false

def has_role (s : ACState) (account role : String) : Bool × Option String :=
  let v := validate_inputs s account role
  if !v.1 then (false, v.2)
  else (mem_lookup s role account, none)

def get_role_admin (s : ACState) (role : String) : Option String × Option String :=
  let ci := check_initialized s
  if !ci.1 then (none, ci.2) else
  let vr := validate_role s role
  if !vr.1 then (none, vr.2) else
  (sget s.role_admins role, none)

/-- `can_administer_role`: caller holds the role's bound admin role, or
holds `DEFAULT_ADMIN_ROLE`.  The second component is the error string the
caller reports when the first is false (the source always returns the
formatted `NOT_ADMIN` message alongside the boolean). -/
def can_administer_role (s : ACState) (caller role : String) : Bool × String :=
  match get_role_admin s role with
  | (_, some err) => (false, err)
  | (admin_role, none) =>
      let har := match admin_role with
        | some ar => (has_role s caller ar).1
        | none => false
      let hda := (has_role s caller DEFAULT_ADMIN_ROLE).1
      (har || hda, NOT_ADMIN caller role)

/-- `get_all_roles` loops `for _, role in ipairs(roles)` inserting each
traversed *value*.  The `roles` table only ever receives string keys
(`roles[role] = true`), so on every reachable state the traversal is
empty; the element type of the collected list is the table's value type
(Lua booleans). -/
def get_all_roles (s : ACState) : Option (List Bool) × Option String :=
  let ci := check_initialized s
  if !ci.1 then (none, ci.2)
  else (some (lua_ipairs s.roles), none)

/-- `get_user_roles` also loops `for _, role in ipairs(roles)`.  If the
traversal yielded a value `v` (a boolean), the body would evaluate
`role_members[v][account]`: `role_members` is string-keyed, so
`role_members[v]` is nil and indexing it raises a Lua error — modelled as
the outer `none`.  With an empty traversal it returns the empty list. -/
def get_user_roles (s : ACState) (account : String) :
    Option (Option (List String) × Option String) :=
  let ci := check_initialized s
  if !ci.1 then some (none, ci.2)
  else
    match lua_ipairs s.roles with
    | [] => some (some [], none)
    | _ :: _ => none

/-- `get_role_members`: collects accounts whose membership flag is set,
iterating `pairs(role_members[role])` in table order.  After
`validate_role` passes, `role_members[role]` exists on every state
reachable through the public operations, so the `.getD []` default is
never taken there (in Lua, `pairs(nil)` would raise). -/
def get_role_members (s : ACState) (role : String) :
    Option (List String) × Option String :=
  let ci := check_initialized s
  if !ci.1 then (none, ci.2) else
  let vr := validate_role s role
  if !vr.1 then (none, vr.2) else
  let t := (sget s.role_members role).getD []
  (some ((t.filter (fun p => p.2)).map Prod.fst), none)

/-- `get_role_member_count`: counts set membership flags; returns 0
alongside the error on a failed validation. -/
def get_role_member_count (s : ACState) (role : String) : Nat × Option String :=
  let ci := check_initialized s
  if !ci.1 then (0, ci.2) else
  let vr := validate_role s role
  if !vr.1 then (0, vr.2) else
  let t := (sget s.role_members role).getD []
  ((t.filter (fun p => p.2)).length, none)

/-- The field updates performed by a successful `init`: declare the root
role, create its member table, point its admin at itself, grant it to
`owner`, set the initialized flag and configure logging. -/
def initialized_state (s : ACState) (owner : String) (is_log_disabled : Bool) :
    ACState :=
  let rm1 := sset s.role_members DEFAULT_ADMIN_ROLE []
  let rm2 := sset rm1 DEFAULT_ADMIN_ROLE
    (sset ((sget rm1 DEFAULT_ADMIN_ROLE).getD []) owner true)
  { is_initialized := true,
    roles := tset s.roles (LuaKey.str DEFAULT_ADMIN_ROLE) true,
    role_members := rm2,
    role_admins := sset s.role_admins DEFAULT_ADMIN_ROLE DEFAULT_ADMIN_ROLE,
    is_log_enabled := if is_log_disabled then false else s.is_log_enabled,
    events := s.events }

/-- `AccessControl.init(caller, owner, is_log_disabled)`. -/
def init (s : ACState) (caller owner : String) (is_log_disabled : Bool)
    (now : Nat) : ACState × Bool × Option String :=
  if s.is_initialized then (s, false, some "Already initialized") else
  let vc := validate_account caller
  if !vc.1 then (s, false, vc.2) else
  let vo := validate_account owner
  if !vo.1 then (s, false, vo.2) else
  let s1 := initialized_state s owner is_log_disabled
  let s2 := log_role_update s1 caller "RoleCreated" DEFAULT_ADMIN_ROLE
    none (some DEFAULT_ADMIN_ROLE) now
  let s3 := log_role_account s2 caller "RoleGranted" DEFAULT_ADMIN_ROLE owner now
  (s3, true, none)

/-- The field updates performed by a successful `create_role`: declare
the role, create its empty member table, bind its admin role. -/
def role_created (s : ACState) (role admin_role : String) : ACState :=
  { s with
    roles := tset s.roles (LuaKey.str role) true,
    role_members := sset s.role_members role [],
    role_admins := sset s.role_admins role admin_role }

/-- `create_role(caller, role, admin_role)`; `admin_role` defaults to the
root role (`admin_role = admin_role or DEFAULT_ADMIN`).  Note that the
new `role` name itself is never validated — only its prior absence is
checked. -/
def create_role (s : ACState) (caller role : String)
    (admin_role_opt : Option String) (now : Nat) : ACState × Bool × Option String :=
  let admin_role := admin_role_opt.getD DEFAULT_ADMIN_ROLE
  let vi := validate_inputs s caller admin_role
  if !vi.1 then (s, false, vi.2) else
  if role_exists s role then (s, false, some ROLE_EXISTS) else
  let ca := can_administer_role s caller admin_role
  if !ca.1 then (s, false, some ca.2) else
  let s1 := role_created s role admin_role
  (log_role_update s1 caller "RoleCreated" role none (some admin_role) now, true, none)

/-- The member-table write `role_members[role][account] = true`.  It
presupposes the member table exists; it does after `validate_role` on
reachable states (the `.getD []` default is the unreachable nil branch,
which in Lua would raise). -/
def member_added (s : ACState) (role account : String) : ACState :=
  let mt := sset ((sget s.role_members role).getD []) account true
  { s with role_members := sset s.role_members role mt }

/-- The member-table write `role_members[role][account] = nil`; same
remark about the `.getD []` branch as in `member_added`. -/
def member_removed (s : ACState) (role account : String) : ACState :=
  let mt := sdel ((sget s.role_members role).getD []) account
  { s with role_members := sset s.role_members role mt }

/-- `grant_role(caller, role, account)`. -/
def grant_role (s : ACState) (caller role account : String) (now : Nat) :
    ACState × Bool × Option String :=
  let vc := validate_account caller
  if !vc.1 then (s, false, vc.2) else
  let vi := validate_inputs s account role
  if !vi.1 then (s, false, vi.2) else
  let ca := can_administer_role s caller role
  if !ca.1 then (s, false, some ca.2) else
  if (has_role s account role).1 then (s, false, some ACCOUNT_HAS_ROLE) else
  let s1 := member_added s role account
  (log_role_account s1 caller "RoleGranted" role account now, true, none)

/-- `would_remove_last_admin(role, account)`: only the root role is
protected; true when it has exactly one set membership flag and `account`
is a member.  (The source reads `role_members[role][account]` directly;
callers reach this only after `validate_role` passed, so the table
exists and the nil-safe `mem_lookup` coincides.) -/
def would_remove_last_admin (s : ACState) (role account : String) : Bool :=
  if role ≠ DEFAULT_ADMIN_ROLE then false
  else
    ((get_role_member_count s role).1 == 1) && mem_lookup s role account

/-- `revoke_role(caller, role, account)`. -/
def revoke_role (s : ACState) (caller role account : String) (now : Nat) :
    ACState × Bool × Option String :=
  let vi := validate_inputs s account role
  if !vi.1 then (s, false, vi.2) else
  let ca := can_administer_role s caller role
  if !ca.1 then (s, false, some ca.2) else
  if !(has_role s account role).1 then (s, false, some ACCOUNT_NO_ROLE) else
  if would_remove_last_admin s role account then
    (s, false, some CANNOT_REMOVE_LAST_ADMIN) else
  let s1 := member_removed s role account
  (log_role_account s1 caller "RoleRevoked" role account now, true, none)

/-- `renounce_role(caller, role)`: self-service revoke with no
administrator check, same last-admin protection. -/
def renounce_role (s : ACState) (caller role : String) (now : Nat) :
    ACState × Bool × Option String :=
  let vi := validate_inputs s caller role
  if !vi.1 then (s, false, vi.2) else
  if !(has_role s caller role).1 then (s, false, some ACCOUNT_NO_ROLE) else
  if would_remove_last_admin s role caller then
    (s, false, some CANNOT_REMOVE_LAST_ADMIN) else
  let s1 := member_removed s role caller
  (log_role_account s1 caller "RoleRenounced" role caller now, true, none)

/-- The admin-pointer rebind performed by a successful `set_role_admin`. -/
def admin_rebound (s : ACState) (role admin_role : String) : ACState :=
  { s with role_admins := sset s.role_admins role admin_role }

/-- `set_role_admin(caller, role, admin_role)`. -/
def set_role_admin (s : ACState) (caller role admin_role : String) (now : Nat) :
    ACState × Bool × Option String :=
  let ca := can_administer_role s caller role
  if !ca.1 then (s, false, some ca.2) else
  let vr := validate_role s admin_role
  if !vr.1 then (s, false, vr.2.map (fun e => "Admin " ++ e)) else
  let old := sget s.role_admins role
  let s1 := admin_rebound s role admin_role
  (log_role_update s1 caller "RoleAdminChanged" role old (some admin_role) now, true, none)

/-- `only_role(caller, role)`: guard predicate. -/
def only_role (s : ACState) (caller role : String) : Bool × Option String :=
  let hr := has_role s caller role
  if !hr.1 then (false, some (hr.2.getD (MISSING_ROLE caller role)))
  else (true, none)

/-- `only_role_admin(caller, role)`: delegates to `can_administer_role`. -/
def only_role_admin (s : ACState) (caller role : String) : Bool × String :=
  can_administer_role s caller role

/-- `clear_events()`. -/
def clear_events (s : ACState) : ACState × Bool × Option String :=
  let ci := check_initialized s
  if !ci.1 then (s, false, ci.2) else ({ s with events := [] }, true, none)

/-- Per-account result entry of `bulk_grant_role`. -/
structure BulkEntry where
  account : String
  success : Bool
  error : Option String
deriving DecidableEq, Repr

/-- The `for _, account in ipairs(accounts)` loop of `bulk_grant_role`:
applies `grant_role` to each account in order, collecting
`{account, success, error}` entries. -/
def bulk_loop (caller role : String) (now : Nat) :
    ACState → List String → ACState × List BulkEntry
  | s, [] => (s, [])
  | s, a :: rest =>
      let r := grant_role s caller role a now
      let w := bulk_loop caller role now r.1 rest
      (w.1, ⟨a, r.2.1, r.2.2⟩ :: w.2)

/-- `bulk_grant_role(caller, role, accounts)`: never aborts the batch;
returns `true` plus the per-account results once past the initialization
check (the `type(accounts) ~= "table"` guard is typed away). -/
def bulk_grant_role (s : ACState) (caller role : String)
    (accounts : List String) (now : Nat) :
    ACState × Bool × Option String × List BulkEntry :=
  let ci := check_initialized s
  if !ci.1 then (s, false, ci.2, [])
  else
    let w := bulk_loop caller role now s accounts
    (w.1, true, none, w.2)

/-- The state-mutating operations of the engine, for quantifying over
call sequences. -/
inductive ACOp where
  | op_init (caller owner : String) (log_disabled : Bool) (now : Nat)
  | op_create (caller role : String) (admin_role_opt : Option String) (now : Nat)
  | op_grant (caller role account : String) (now : Nat)
  | op_revoke (caller role account : String) (now : Nat)
  | op_renounce (caller role : String) (now : Nat)
  | op_set_admin (caller role admin_role : String) (now : Nat)
  | op_bulk (caller role : String) (accounts : List String) (now : Nat)
  | op_clear_events

def ac_apply (s : ACState) : ACOp → ACState
  | .op_init c o d now => (init s c o d now).1
  | .op_create c r a now => (create_role s c r a now).1
  | .op_grant c r a now => (grant_role s c r a now).1
  | .op_revoke c r a now => (revoke_role s c r a now).1
  | .op_renounce c r now => (renounce_role s c r now).1
  | .op_set_admin c r a now => (set_role_admin s c r a now).1
  | .op_bulk c r accounts now => (bulk_grant_role s c r accounts now).1
  | .op_clear_events => (clear_events s).1

/-- Engine state after a call sequence from the fresh module state. -/
def ac_run (ops : List ACOp) : ACState := ops.foldl ac_apply startState

/-- An engine state reachable through the public operations. -/
def ACReach (s : ACState) : Prop := ∃ ops, ac_run ops = s

/-- Well-formedness holding of every state reachable through the public
operations: the roles table has only string keys with value `true`; a
role is declared exactly when its member table exists; member tables hold
only `true` flags for non-empty account names; every declared role has a
declared admin role bound; and an initialized state has the root role
declared. -/
structure WF (s : ACState) : Prop where
  roles_keys : ∀ p ∈ s.roles, (∃ r, p.1 = LuaKey.str r) ∧ p.2 = true
  members_defined : ∀ r : String,
    role_exists s r = true ↔ (sget s.role_members r).isSome = true
  member_flags : ∀ r t a b, sget s.role_members r = some t → (a, b) ∈ t →
    b = true ∧ a ≠ ""
  admin_defined : ∀ r : String, role_exists s r = true →
    ∃ ar, sget s.role_admins r = some ar ∧ role_exists s ar = true ∧ ar ≠ ""
  root_declared : s.is_initialized = true → role_exists s DEFAULT_ADMIN_ROLE = true

end AccessControl

namespace Blog

open AccessControl

/-- The placeholder value of the `RegistryProcess` global: a configured
process id must differ from it for any sync message to be sent. -/
def YOUR_REGISTRY : String := "YOUR_REGISTRY_PROCESS_ID"

/-- A message the blog process sends to the registry process via
`ao.send` (fire and forget). -/
inductive RegMsg where
  | register_perm (target wallet : String) (roles : List String)
  | remove_perm (target wallet : String)
deriving DecidableEq, Repr

/-- `sync_wallet_to_registry(wallet, roles)`: skipped when
`RegistryProcess` is unset or still the placeholder; otherwise sends one
Register-Wallet-Permissions message carrying `{wallet, roles}`. -/
def sync_wallet_to_registry (rp : Option String) (wallet : String)
    (roles : List String) : List RegMsg :=
  match rp with
  | none => []
  | some t => if t = YOUR_REGISTRY then [] else [RegMsg.register_perm t wallet roles]

/-- `remove_wallet_from_registry(wallet)`: same skip rule; otherwise one
Remove-Wallet-Permissions message. -/
def remove_wallet_from_registry (rp : Option String) (wallet : String) :
    List RegMsg :=
  match rp with
  | none => []
  | some t => if t = YOUR_REGISTRY then [] else [RegMsg.remove_perm t wallet]

/-- `get_wallet_roles_for_registry(wallet)`: the account's current role
snapshot, read through `AccessControl.has_role` for the root and editor
roles (in that order). -/
def get_wallet_roles_for_registry (s : ACState) (wallet : String) : List String :=
  let roles : List String := []
  let roles := if (has_role s wallet DEFAULT_ADMIN_ROLE).1 then
    roles ++ [DEFAULT_ADMIN_ROLE] else roles
  let roles := if (has_role s wallet EDITOR_ROLE).1 then
    roles ++ [EDITOR_ROLE] else roles
  roles

/-- The `role_action` parameter of `update_roles`:
`AccessControl.grant_role` or `AccessControl.revoke_role`. -/
inductive RoleAction where
  | grant
  | revoke
deriving DecidableEq, Repr

def apply_role_action : RoleAction → ACState → String → String → String → Nat →
    ACState × Bool × Option String
  | .grant, s, caller, role, account, now => grant_role s caller role account now
  | .revoke, s, caller, role, account, now => revoke_role s caller role account now

/-- A `{account, success, error}` entry of the `results` array. -/
structure URItem where
  account : String
  success : Bool
  error : Option String
deriving DecidableEq, Repr

/-- The `for _, account in ipairs(data.accounts)` loop of the
BLOG_CONTRACT's `update_roles` (browser-deploy.ts): an empty-string
account is reported invalid without calling the action; otherwise the
action runs, and — only on success — the account's current snapshot is
computed from the mutated store and exactly one registry message is
emitted (upsert if non-empty, remove otherwise).  Returns the final
state, the result entries in input order, and the emitted messages in
order. -/
def ur_loop (rp : Option String) (action : RoleAction) (from_addr role : String)
    (now : Nat) : ACState → List String → ACState × List URItem × List RegMsg
  | s, [] => (s, [], [])
  | s, a :: rest =>
      if a = "" then
        let w := ur_loop rp action from_addr role now s rest
        (w.1, ⟨a, false, some INVALID_ACCOUNT⟩ :: w.2.1, w.2.2)
      else
        let r := apply_role_action action s from_addr role a now
        let msgs_a :=
          if r.2.1 then
            let roles := get_wallet_roles_for_registry r.1 a
            if roles.length > 0 then sync_wallet_to_registry rp a roles
            else remove_wallet_from_registry rp a
          else []
        let w := ur_loop rp action from_addr role now r.1 rest
        (w.1, ⟨a, r.2.1, r.2.2⟩ :: w.2.1, msgs_a ++ w.2.2)

/-- `update_roles(msg, role_action, role)` of the BLOG_CONTRACT: gated on
the sender holding the root role, then on the decoded `accounts` array
(`none` models a JSON decode failure; the `type` check is typed away);
`global_success` is the conjunction of the per-account successes. -/
def update_roles (rp : Option String) (s : ACState) (from_addr : String)
    (action : RoleAction) (role : String) (data_accounts : Option (List String))
    (now : Nat) : ACState × Bool × Option String × List URItem × List RegMsg :=
  let ia := only_role s from_addr DEFAULT_ADMIN_ROLE
  if !ia.1 then (s, false, ia.2, [], [])
  else match data_accounts with
    | none => (s, false, some "Invalid JSON data", [], [])
    | some accounts =>
        if accounts.isEmpty then
          (s, false, some "Field 'accounts' must contain at least one account",
           [], [])
        else
          let w := ur_loop rp action from_addr role now s accounts
          (w.1, (w.2.1).all (fun i => i.success), none, w.2.1, w.2.2)

/-- Comparison definition written from the spec's words for C4: for each
account in order the mutation is threaded through; each account whose
grant or revoke succeeds contributes exactly one registry message — an
upsert carrying the account's full current role snapshot (its membership
in DEFAULT_ADMIN_ROLE and EDITOR_ROLE read from the local store after the
mutation) when the snapshot is non-empty, a remove when it is empty — and
a failed or invalid account contributes no message. -/
def spec_snapshot (s : ACState) (a : String) : List String :=
  (if mem_lookup s DEFAULT_ADMIN_ROLE a then [DEFAULT_ADMIN_ROLE] else []) ++
  (if mem_lookup s EDITOR_ROLE a then [EDITOR_ROLE] else [])

def registry_push_spec (target : String) (action : RoleAction)
    (from_addr role : String) (now : Nat) :
    ACState → List String → List RegMsg
  | _, [] => []
  | s, a :: rest =>
      if a = "" then registry_push_spec target action from_addr role now s rest
      else
        let r := apply_role_action action s from_addr role a now
        (if r.2.1 then
          (let snap := spec_snapshot r.1 a
           if snap.isEmpty then [RegMsg.remove_perm target a]
           else [RegMsg.register_perm target a snap])
         else []) ++ registry_push_spec target action from_addr role now r.1 rest

/-- Reply shape of the member-list handlers (the JSON encoding of a
string list always succeeds and is modelled as the identity). -/
structure MemberReply where
  success : Bool
  members : Option (List String)
  error : Option String
deriving DecidableEq, Repr

/-- The blog-process helper `get_role_members(msg, role)` shared by the
Get-Editors and Get-Admins handlers. -/
def get_role_members_handler (s : ACState) (role : String) : MemberReply :=
  match AccessControl.get_role_members s role with
  | (some l, _) => ⟨true, some l, none⟩
  | (none, err) => ⟨false, none, err⟩

/-- Reply of the handler registered for Action "Get-Editors": it passes
`AccessControl.ROLES.EDITOR`. -/
def get_editors_reply (s : ACState) : MemberReply :=
  get_role_members_handler s EDITOR_ROLE

/-- Reply of the handler registered for Action "Get-Admins": the source
passes `AccessControl.ROLES.EDITOR` here as well (both in
`inkwell_blog.lua` and in the BLOG_CONTRACT of `browser-deploy.ts`). -/
def get_admins_reply (s : ACState) : MemberReply :=
  get_role_members_handler s EDITOR_ROLE

/-- The handlers of the blog process that reply with a role member list,
with the role each passes to `get_role_members` — transcribed from the
`Handlers.add` registrations: only Get-Editors and Get-Admins call it,
and both pass the editor role. -/
def member_list_handler_roles : List (String × String) :=
  [("Get-Editors", EDITOR_ROLE), ("Get-Admins", EDITOR_ROLE)]

end Blog

end Inkwell

namespace Inkwell

theorem sget_sset {V : Type} (t : List (String × V)) (k k' : String) (v : V) :
    sget (sset t k v) k' = if k = k' then some v else sget t k' := by
  induction t with
  | nil => simp [sset, sget]
  | cons p rest ih =>
      obtain ⟨k₀, v₀⟩ := p
      by_cases h₀ : k₀ = k
      · subst h₀
        by_cases h : k₀ = k' <;> simp [sset, sget, h]
      · by_cases h : k₀ = k'
        · subst h
          have hk : ¬ k = k₀ := fun hh => h₀ hh.symm
          simp [sset, sget, h₀, hk]
        · simp [sset, sget, h₀, h, ih]

theorem sget_sdel {V : Type} (t : List (String × V)) (k k' : String) :
    sget (sdel t k) k' = if k = k' then none else sget t k' := by
  induction t with
  | nil => simp [sdel, sget]
  | cons p rest ih =>
      obtain ⟨k₀, v₀⟩ := p
      by_cases h₀ : k₀ = k
      · subst h₀
        by_cases h : k₀ = k'
        · subst h
          simp [sdel, sget, ih]
        · simp [sdel, sget, ih, h]
      · by_cases h : k₀ = k'
        · subst h
          have hk : ¬ k = k₀ := fun hh => h₀ hh.symm
          simp [sdel, sget, h₀, hk]
        · simp [sdel, sget, h₀, h, ih]

/-- Entries of `sdel t k` are the entries of `t` whose key differs from `k`. -/
theorem mem_sdel {V : Type} {t : List (String × V)} {k : String} {p : String × V} :
    p ∈ sdel t k ↔ p ∈ t ∧ p.1 ≠ k := by
  induction t with
  | nil => simp [sdel]
  | cons q rest ih =>
      obtain ⟨k₀, v₀⟩ := q
      by_cases h₀ : k₀ = k
      · subst h₀
        have hd : sdel ((k₀, v₀) :: rest) k₀ = sdel rest k₀ := by simp [sdel]
        rw [hd, ih]
        simp only [List.mem_cons]
        constructor
        · rintro ⟨h1, hne⟩
          exact ⟨Or.inr h1, hne⟩
        · rintro ⟨h1 | h1, hne⟩
          · exact absurd rfl (h1 ▸ hne)
          · exact ⟨h1, hne⟩
      · have hd : sdel ((k₀, v₀) :: rest) k = (k₀, v₀) :: sdel rest k := by
          simp [sdel, h₀]
        rw [hd]
        simp only [List.mem_cons, ih]
        constructor
        · rintro (h1 | ⟨h1, hne⟩)
          · exact ⟨Or.inl h1, by simp [h1, h₀]⟩
          · exact ⟨Or.inr h1, hne⟩
        · rintro ⟨h1 | h1, hne⟩
          · exact Or.inl h1
          · exact Or.inr ⟨h1, hne⟩

/-- Entries of `sset t k v` are `(k, v)` or entries of `t`. -/
theorem mem_sset {V : Type} {t : List (String × V)} {k : String} {v : V} {p : String × V} :
    p ∈ sset t k v → p = (k, v) ∨ p ∈ t := by
  induction t with
  | nil => simp [sset]
  | cons q rest ih =>
      obtain ⟨k₀, v₀⟩ := q
      by_cases h₀ : k₀ = k
      · subst h₀
        have hs : sset ((k₀, v₀) :: rest) k₀ v = (k₀, v) :: rest := by simp [sset]
        rw [hs]
        simp only [List.mem_cons]
        rintro (h | h)
        · exact Or.inl h
        · exact Or.inr (Or.inr h)
      · have hs : sset ((k₀, v₀) :: rest) k v = (k₀, v₀) :: sset rest k v := by
          simp [sset, h₀]
        rw [hs]
        simp only [List.mem_cons]
        rintro (h | h)
        · exact Or.inr (Or.inl h)
        · rcases ih h with h' | h'
          · exact Or.inl h'
          · exact Or.inr (Or.inr h')

namespace BlogRegistry

theorem pair_lookup_upsert (idx : List (String × List (String × RegEntry)))
    (w b : String) (e : RegEntry) (w' b' : String) :
    pair_lookup (sset idx w (sset ((sget idx w).getD []) b e)) w' b' =
      if w = w' ∧ b = b' then some e else pair_lookup idx w' b' := by
  by_cases hw : w = w'
  · subst hw
    by_cases hb : b = b'
    · subst hb
      simp [pair_lookup, sget_sset]
    · cases hsg : sget idx w <;>
        simp [pair_lookup, sget, sget_sset, hsg, hb]
  · cases hsg : sget idx w' <;>
      simp [pair_lookup, sget_sset, hsg, hw]

theorem sget_of_sdel_nil {V : Type} {t : List (String × V)} {k : String}
    (h : sdel t k = []) {k' : String} (hk : k ≠ k') : sget t k' = none := by
  have h2 := sget_sdel t k k'
  rw [h, if_neg hk] at h2
  simpa [sget] using h2.symm

theorem pair_lookup_remove_side (idx : List (String × List (String × RegEntry)))
    (k1 k2 k1' k2' : String) :
    pair_lookup (remove_side idx k1 k2) k1' k2' =
      if k1 = k1' ∧ k2 = k2' then none else pair_lookup idx k1' k2' := by
  cases hsg : sget idx k1 with
  | none =>
      have hrs : remove_side idx k1 k2 = idx := by simp [remove_side, hsg]
      rw [hrs]
      by_cases hc : k1 = k1' ∧ k2 = k2'
      · obtain ⟨h1, h2⟩ := hc
        subst h1; subst h2
        simp [pair_lookup, hsg]
      · simp [hc]
  | some t =>
      by_cases hemp : (sdel t k2).isEmpty
      · have hnil : sdel t k2 = [] := by
          cases h : sdel t k2 with
          | nil => rfl
          | cons x xs => rw [h] at hemp; simp [List.isEmpty] at hemp
        have hrs : remove_side idx k1 k2 = sdel idx k1 := by
          simp [remove_side, hsg, hemp]
        rw [hrs]
        by_cases hw : k1 = k1'
        · subst hw
          have hL : pair_lookup (sdel idx k1) k1 k2' = none := by
            simp [pair_lookup, sget_sdel]
          rw [hL]
          by_cases hbv : k2 = k2'
          · simp [hbv]
          · have hR : pair_lookup idx k1 k2' = none := by
              simp [pair_lookup, hsg, sget_of_sdel_nil hnil hbv]
            simp [hbv, hR]
        · have hL : pair_lookup (sdel idx k1) k1' k2' = pair_lookup idx k1' k2' := by
            simp [pair_lookup, sget_sdel, hw]
          rw [hL]
          simp [hw]
      · have hrs : remove_side idx k1 k2 = sset idx k1 (sdel t k2) := by
          simp [remove_side, hsg, hemp]
        rw [hrs]
        by_cases hw : k1 = k1'
        · subst hw
          have hL : pair_lookup (sset idx k1 (sdel t k2)) k1 k2' = sget (sdel t k2) k2' := by
            simp [pair_lookup, sget_sset]
          rw [hL, sget_sdel]
          by_cases hbv : k2 = k2'
          · simp [hbv]
          · simp [pair_lookup, hsg, hbv]
        · have hL : pair_lookup (sset idx k1 (sdel t k2)) k1' k2' = pair_lookup idx k1' k2' := by
            simp [pair_lookup, sget_sset, hw]
          rw [hL]
          simp [hw]

/-- Failure leaves the registry untouched; success stores the same fresh
entry at `(w, b)` in the wallet index and `(b, w)` in the blog index. -/
theorem register_cases (s : RegState) (w b : String) (roles : List String) (now : Nat) :
    (register_wallet_permissions s w b roles now).1 = s ∨
    ((validate_roles roles).1 = true ∧
     (register_wallet_permissions s w b roles now).1 =
      { wallet_blogs := sset s.wallet_blogs w
          (sset ((sget s.wallet_blogs w).getD []) b ⟨roles, now⟩),
        blog_wallets := sset s.blog_wallets b
          (sset ((sget s.blog_wallets b).getD []) w ⟨roles, now⟩) }) := by
  unfold register_wallet_permissions
  by_cases h1 : (validate_wallet w).1 <;> by_cases h2 : (validate_blog_id b).1 <;>
    by_cases h3 : (validate_roles roles).1 <;> simp [h1, h2, h3]

theorem remove_cases (s : RegState) (w b : String) :
    (remove_wallet_permissions s w b).1 = s ∨
    (remove_wallet_permissions s w b).1 =
      { wallet_blogs := remove_side s.wallet_blogs w b,
        blog_wallets := remove_side s.blog_wallets b w } := by
  unfold remove_wallet_permissions
  by_cases h1 : (validate_wallet w).1 <;> by_cases h2 : (validate_blog_id b).1 <;>
    simp [h1, h2]

theorem mirror_register {s : RegState} (hm : Mirror s) (w b : String)
    (roles : List String) (now : Nat) :
    Mirror (register_wallet_permissions s w b roles now).1 := by
  rcases register_cases s w b roles now with h | ⟨_, h⟩
  · rw [h]; exact hm
  · intro w' b'
    rw [h]
    show pair_lookup _ w' b' = pair_lookup _ b' w'
    rw [pair_lookup_upsert, pair_lookup_upsert]
    by_cases hc : w = w' ∧ b = b'
    · simp [hc.1, hc.2]
    · have hc' : ¬ (b = b' ∧ w = w') := fun hh => hc ⟨hh.2, hh.1⟩
      simp [hc, hc', hm w' b']

theorem mirror_remove {s : RegState} (hm : Mirror s) (w b : String) :
    Mirror (remove_wallet_permissions s w b).1 := by
  rcases remove_cases s w b with h | h
  · rw [h]; exact hm
  · intro w' b'
    rw [h]
    show pair_lookup _ w' b' = pair_lookup _ b' w'
    rw [pair_lookup_remove_side, pair_lookup_remove_side]
    by_cases hc : w = w' ∧ b = b'
    · simp [hc.1, hc.2]
    · have hc' : ¬ (b = b' ∧ w = w') := fun hh => hc ⟨hh.2, hh.1⟩
      simp [hc, hc', hm w' b']

theorem mirror_update {s : RegState} (hm : Mirror s) (w b : String)
    (roles : List String) (now : Nat) :
    Mirror (update_wallet_roles s w b roles now).1 := by
  unfold update_wallet_roles
  by_cases h1 : (validate_roles roles).1
  · by_cases h2 : roles.length = 0
    · simpa [h1, h2] using mirror_remove hm w b
    · simpa [h1, h2] using mirror_register hm w b roles now
  · simpa [h1] using hm

theorem noempty_register {s : RegState} (hn : NoEmptyRoles s) (w b : String)
    (roles : List String) (now : Nat) (hroles : roles ≠ []) :
    NoEmptyRoles (register_wallet_permissions s w b roles now).1 := by
  rcases register_cases s w b roles now with h | ⟨_, h⟩
  · rw [h]; exact hn
  · rw [h]
    constructor
    · intro w' b' e he
      rw [show pair_lookup _ w' b' = _ from pair_lookup_upsert _ w b ⟨roles, now⟩ w' b'] at he
      by_cases hc : w = w' ∧ b = b'
      · rw [if_pos hc] at he
        cases he
        exact hroles
      · rw [if_neg hc] at he
        exact hn.1 w' b' e he
    · intro b' w' e he
      rw [show pair_lookup _ b' w' = _ from pair_lookup_upsert _ b w ⟨roles, now⟩ b' w'] at he
      by_cases hc : b = b' ∧ w = w'
      · rw [if_pos hc] at he
        cases he
        exact hroles
      · rw [if_neg hc] at he
        exact hn.2 b' w' e he

theorem noempty_remove {s : RegState} (hn : NoEmptyRoles s) (w b : String) :
    NoEmptyRoles (remove_wallet_permissions s w b).1 := by
  rcases remove_cases s w b with h | h
  · rw [h]; exact hn
  · rw [h]
    constructor
    · intro w' b' e he
      rw [show pair_lookup _ w' b' = _ from pair_lookup_remove_side _ w b w' b'] at he
      by_cases hc : w = w' ∧ b = b'
      · rw [if_pos hc] at he; cases he
      · rw [if_neg hc] at he
        exact hn.1 w' b' e he
    · intro b' w' e he
      rw [show pair_lookup _ b' w' = _ from pair_lookup_remove_side _ b w b' w'] at he
      by_cases hc : b = b' ∧ w = w'
      · rw [if_pos hc] at he; cases he
      · rw [if_neg hc] at he
        exact hn.2 b' w' e he

theorem noempty_update {s : RegState} (hn : NoEmptyRoles s) (w b : String)
    (roles : List String) (now : Nat) :
    NoEmptyRoles (update_wallet_roles s w b roles now).1 := by
  unfold update_wallet_roles
  by_cases h1 : (validate_roles roles).1
  · by_cases h2 : roles.length = 0
    · simpa [h1, h2] using noempty_remove hn w b
    · have hne : roles ≠ [] := by
        intro hh; rw [hh] at h2; exact h2 rfl
      simpa [h1, h2] using noempty_register hn w b roles now hne
  · simpa [h1] using hn

theorem mirror_apply {s : RegState} (hm : Mirror s) (op : RegOp) :
    Mirror (reg_apply s op) := by
  cases op with
  | register w b roles now => exact mirror_register hm w b roles now
  | remove w b => exact mirror_remove hm w b
  | update w b roles now => exact mirror_update hm w b roles now

theorem noempty_apply {s : RegState} (hn : NoEmptyRoles s) {op : RegOp}
    (hop : reg_op_nonempty_roles op) : NoEmptyRoles (reg_apply s op) := by
  cases op with
  | register w b roles now => exact noempty_register hn w b roles now hop
  | remove w b => exact noempty_remove hn w b
  | update w b roles now => exact noempty_update hn w b roles now

theorem mirror_foldl (ops : List RegOp) :
    ∀ s : RegState, Mirror s → Mirror (ops.foldl reg_apply s) := by
  induction ops with
  | nil => intro s h; exact h
  | cons op rest ih =>
      intro s h
      rw [List.foldl_cons]
      exact ih _ (mirror_apply h op)

theorem noempty_foldl (ops : List RegOp) (hops : ∀ op ∈ ops, reg_op_nonempty_roles op) :
    ∀ s : RegState, NoEmptyRoles s → NoEmptyRoles (ops.foldl reg_apply s) := by
  induction ops with
  | nil => intro s h; exact h
  | cons op rest ih =>
      intro s h
      rw [List.foldl_cons]
      exact ih (fun o ho => hops o (List.mem_cons_of_mem _ ho)) _
        (noempty_apply h (hops op (List.mem_cons_self _ _)))

theorem mirror_empty : Mirror empty := by
  intro w b
  rfl

theorem noempty_empty : NoEmptyRoles empty := by
  constructor <;> intro a b e he <;> simp [pair_lookup, sget, empty] at he

/-- C3 (counterexample): a single `register` with an empty roles list —
which passes `validate_roles`, since the allow-list check is vacuous on an
empty table — stores a `(wallet, blog)` pair whose roles set is empty, in
both indices, contradicting the claim that no stored pair has an empty
roles set after any register/remove/update sequence. -/
theorem registry_empty_roles_counterexample :
    pair_lookup (reg_run [RegOp.register "w" "b" ([] : List String) 5]).wallet_blogs
        "w" "b" = some ⟨[], 5⟩ ∧
    pair_lookup (reg_run [RegOp.register "w" "b" ([] : List String) 5]).blog_wallets
        "b" "w" = some ⟨[], 5⟩ := by
  constructor <;> rfl

/-- C3 (amended): after every sequence of register/remove/update
operations starting from the empty registry the two indices are exact
transposes of each other; and provided every `register` in the sequence
carries a non-empty roles list (`update` and `remove` never store an
empty-roles pair on their own), no stored pair in either index has an
empty roles set. -/
theorem registry_dual_index_invariant (ops : List RegOp) :
    Mirror (reg_run ops) ∧
    ((∀ op ∈ ops, reg_op_nonempty_roles op) → NoEmptyRoles (reg_run ops)) :=
  ⟨mirror_foldl ops empty mirror_empty,
   fun hops => noempty_foldl ops hops empty noempty_empty⟩

/-- Witness for C3's amended theorem at a concrete operation sequence. -/
theorem registry_dual_index_invariant_witness :
    Mirror (reg_run [RegOp.register "w" "b" [EDITOR_ROLE] 1,
                     RegOp.update "w" "b" [] 2]) ∧
    NoEmptyRoles (reg_run [RegOp.register "w" "b" [EDITOR_ROLE] 1,
                           RegOp.update "w" "b" [] 2]) :=
  ⟨(registry_dual_index_invariant _).1,
   (registry_dual_index_invariant
      [RegOp.register "w" "b" [EDITOR_ROLE] 1, RegOp.update "w" "b" [] 2]).2
    (by
      intro op hop
      rcases List.mem_cons.mp hop with rfl | hop
      · exact List.cons_ne_nil _ _
      · rcases List.mem_cons.mp hop with rfl | hop
        · exact trivial
        · cases hop)⟩

/-- C5 (counterexample): with an invalid wallet and an invalid role,
`update` reports the roles error (it validates roles first) while
`register` reports the wallet error (it validates the wallet first), so
the two calls are not observably identical on a non-empty roles list. -/
theorem update_register_divergence :
    update_wallet_roles empty "" "b" ["ROLE_X"] 0 ≠
      register_wallet_permissions empty "" "b" ["ROLE_X"] 0 := by
  decide

/-- C5 (amended): `update(wallet, blog, [])` is exactly `remove(wallet,
blog)` on every input; with a non-empty roles list it is exactly
`register` provided the roles list passes the allow-list validation, and
when the roles list fails validation both calls fail and leave the
registry unchanged, though they may report different error strings. -/
theorem update_refines_remove_and_register (s : RegState) (w b : String)
    (roles : List String) (now : Nat) :
    update_wallet_roles s w b [] now = remove_wallet_permissions s w b ∧
    (roles ≠ [] → (validate_roles roles).1 = true →
      update_wallet_roles s w b roles now = register_wallet_permissions s w b roles now) ∧
    ((validate_roles roles).1 = false →
      (update_wallet_roles s w b roles now).1 = s ∧
      (update_wallet_roles s w b roles now).2.1 = false ∧
      (register_wallet_permissions s w b roles now).1 = s ∧
      (register_wallet_permissions s w b roles now).2.1 = false) := by
  refine ⟨rfl, fun hne hv => ?_, fun hv => ?_⟩
  · unfold update_wallet_roles
    have hlen : ¬ roles.length = 0 := by
      cases roles with
      | nil => exact absurd rfl hne
      | cons r rest => simp
    simp [hv, hlen]
  · constructor
    · unfold update_wallet_roles
      simp [hv]
    constructor
    · unfold update_wallet_roles
      simp [hv]
    · unfold register_wallet_permissions
      by_cases h1 : (validate_wallet w).1 <;> by_cases h2 : (validate_blog_id b).1 <;>
        simp [h1, h2, hv]

/-- Witness for C5's amended theorem at concrete inputs. -/
theorem update_refines_witness :
    update_wallet_roles empty "w" "b" [] 0 = remove_wallet_permissions empty "w" "b" ∧
    update_wallet_roles empty "w" "b" [EDITOR_ROLE] 0 =
      register_wallet_permissions empty "w" "b" [EDITOR_ROLE] 0 :=
  ⟨(update_refines_remove_and_register empty "w" "b" [EDITOR_ROLE] 0).1,
   (update_refines_remove_and_register empty "w" "b" [EDITOR_ROLE] 0).2.1
     (by decide) (by decide)⟩

theorem sset_keys_subset {V : Type} {t : List (String × V)} {k : String} {v : V}
    {x : String} :
    x ∈ (sset t k v).map Prod.fst → x = k ∨ x ∈ t.map Prod.fst := by
  intro hx
  rcases List.mem_map.mp hx with ⟨p, hp, hpx⟩
  rcases mem_sset hp with h | h
  · left; rw [← hpx, h]
  · right; exact List.mem_map.mpr ⟨p, h, hpx⟩

theorem sset_keys_nodup {V : Type} {t : List (String × V)} {k : String} {v : V}
    (h : (t.map Prod.fst).Nodup) : ((sset t k v).map Prod.fst).Nodup := by
  induction t with
  | nil => simp [sset]
  | cons q rest ih =>
      obtain ⟨k₀, v₀⟩ := q
      simp only [List.map_cons, List.nodup_cons] at h
      obtain ⟨hk₀, hrest⟩ := h
      by_cases h₀ : k₀ = k
      · subst h₀
        have hs : sset ((k₀, v₀) :: rest) k₀ v = (k₀, v) :: rest := by simp [sset]
        rw [hs]
        simp only [List.map_cons, List.nodup_cons]
        exact ⟨hk₀, hrest⟩
      · have hs : sset ((k₀, v₀) :: rest) k v = (k₀, v₀) :: sset rest k v := by
          simp [sset, h₀]
        rw [hs]
        simp only [List.map_cons, List.nodup_cons]
        refine ⟨fun hx => ?_, ih hrest⟩
        rcases sset_keys_subset hx with h | h
        · exact h₀ h
        · exact hk₀ h

theorem sdel_keys_sublist {V : Type} (t : List (String × V)) (k : String) :
    ((sdel t k).map Prod.fst).Sublist (t.map Prod.fst) := by
  induction t with
  | nil => simp [sdel]
  | cons q rest ih =>
      obtain ⟨k₀, v₀⟩ := q
      by_cases h₀ : k₀ = k
      · subst h₀
        have hs : sdel ((k₀, v₀) :: rest) k₀ = sdel rest k₀ := by simp [sdel]
        rw [hs]
        simpa using ih.cons _
      · have hs : sdel ((k₀, v₀) :: rest) k = (k₀, v₀) :: sdel rest k := by
          simp [sdel, h₀]
        rw [hs]
        simpa using List.Sublist.cons₂ k₀ ih

theorem sdel_keys_nodup {V : Type} {t : List (String × V)} {k : String}
    (h : (t.map Prod.fst).Nodup) : ((sdel t k).map Prod.fst).Nodup :=
  h.sublist (sdel_keys_sublist t k)

theorem wallet_nodup_register {s : RegState} (h : WalletKeysNodup s)
    (w b : String) (roles : List String) (now : Nat) :
    WalletKeysNodup (register_wallet_permissions s w b roles now).1 := by
  rcases register_cases s w b roles now with hs | ⟨_, hs⟩
  · rw [hs]; exact h
  · rw [hs]
    intro w' t ht
    rw [show sget _ w' = _ from sget_sset _ w w' _] at ht
    by_cases hw : w = w'
    · rw [if_pos hw] at ht
      cases ht
      apply sset_keys_nodup
      cases hsg : sget s.wallet_blogs w with
      | none => simp [hsg]
      | some t0 => simpa [hsg] using h w t0 hsg
    · rw [if_neg hw] at ht
      exact h w' t ht

theorem wallet_nodup_remove {s : RegState} (h : WalletKeysNodup s) (w b : String) :
    WalletKeysNodup (remove_wallet_permissions s w b).1 := by
  rcases remove_cases s w b with hs | hs
  · rw [hs]; exact h
  · rw [hs]
    intro w' t ht
    show (t.map Prod.fst).Nodup
    revert ht
    show sget (remove_side s.wallet_blogs w b) w' = some t → _
    unfold remove_side
    cases hsg : sget s.wallet_blogs w with
    | none =>
        intro ht
        exact h w' t ht
    | some t0 =>
        show sget (if (sdel t0 b).isEmpty then sdel s.wallet_blogs w
            else sset s.wallet_blogs w (sdel t0 b)) w' = some t →
          (t.map Prod.fst).Nodup
        by_cases hemp : (sdel t0 b).isEmpty
        · rw [if_pos hemp]
          intro ht
          rw [sget_sdel] at ht
          by_cases hw : w = w'
          · rw [if_pos hw] at ht; cases ht
          · rw [if_neg hw] at ht
            exact h w' t ht
        · rw [if_neg hemp]
          intro ht
          rw [sget_sset] at ht
          by_cases hw : w = w'
          · rw [if_pos hw] at ht
            cases ht
            exact sdel_keys_nodup (h w t0 hsg)
          · rw [if_neg hw] at ht
            exact h w' t ht

theorem wallet_nodup_update {s : RegState} (h : WalletKeysNodup s)
    (w b : String) (roles : List String) (now : Nat) :
    WalletKeysNodup (update_wallet_roles s w b roles now).1 := by
  unfold update_wallet_roles
  by_cases h1 : (validate_roles roles).1
  · by_cases h2 : roles.length = 0
    · simpa [h1, h2] using wallet_nodup_remove h w b
    · simpa [h1, h2] using wallet_nodup_register h w b roles now
  · simpa [h1] using h

theorem wallet_nodup_apply {s : RegState} (h : WalletKeysNodup s) (op : RegOp) :
    WalletKeysNodup (reg_apply s op) := by
  cases op with
  | register w b roles now => exact wallet_nodup_register h w b roles now
  | remove w b => exact wallet_nodup_remove h w b
  | update w b roles now => exact wallet_nodup_update h w b roles now

theorem reach_wallet_nodup {s : RegState} (hr : RegReach s) : WalletKeysNodup s := by
  obtain ⟨ops, rfl⟩ := hr
  have key : ∀ s0 : RegState, WalletKeysNodup s0 →
      WalletKeysNodup (ops.foldl reg_apply s0) := by
    induction ops with
    | nil => intro s0 h; exact h
    | cons op rest ih =>
        intro s0 h
        rw [List.foldl_cons]
        exact ih _ (wallet_nodup_apply h op)
  exact key empty (by intro w t ht; simp [empty, sget] at ht)

theorem filter_eq_nil_of_keys {V : Type} {t : List (String × V)} {k : String}
    (h : k ∉ t.map Prod.fst) : t.filter (fun p => p.1 == k) = [] := by
  induction t with
  | nil => rfl
  | cons q rest ih =>
      simp only [List.map_cons, List.mem_cons] at h
      push_neg at h
      obtain ⟨h1, h2⟩ := h
      have hq : (q.1 == k) = false := by
        simp only [beq_eq_false_iff_ne]
        exact fun hh => h1 hh.symm
      rw [List.filter_cons]
      simp [hq, ih h2]

theorem filter_sset_self {V : Type} {t : List (String × V)} {k : String} {v : V}
    (h : (t.map Prod.fst).Nodup) :
    (sset t k v).filter (fun p => p.1 == k) = [(k, v)] := by
  induction t with
  | nil => simp [sset]
  | cons q rest ih =>
      obtain ⟨k₀, v₀⟩ := q
      simp only [List.map_cons, List.nodup_cons] at h
      obtain ⟨hk₀, hrest⟩ := h
      by_cases h₀ : k₀ = k
      · subst h₀
        have hs : sset ((k₀, v₀) :: rest) k₀ v = (k₀, v) :: rest := by simp [sset]
        rw [hs, List.filter_cons]
        simp [filter_eq_nil_of_keys hk₀]
      · have hs : sset ((k₀, v₀) :: rest) k v = (k₀, v₀) :: sset rest k v := by
          simp [sset, h₀]
        have hq : ((k₀, v₀).1 == k) = false := by
          simp only [beq_eq_false_iff_ne]
          exact h₀
        rw [hs, List.filter_cons]
        simp [hq, ih hrest]

theorem filter_map_comm {α β : Type} (f : α → β) (p : β → Bool) (l : List α) :
    (l.map f).filter p = (l.filter (fun a => p (f a))).map f := by
  induction l with
  | nil => rfl
  | cons a rest ih =>
      rw [List.map_cons, List.filter_cons, List.filter_cons]
      by_cases h : p (f a) <;> simp [h, ih]

theorem register_success_state (s : RegState) (w b : String) (roles : List String)
    (now : Nat) (hw : w ≠ "") (hb : b ≠ "") (hroles : (validate_roles roles).1 = true) :
    register_wallet_permissions s w b roles now =
      ({ wallet_blogs := sset s.wallet_blogs w
           (sset ((sget s.wallet_blogs w).getD []) b ⟨roles, now⟩),
         blog_wallets := sset s.blog_wallets b
           (sset ((sget s.blog_wallets b).getD []) w ⟨roles, now⟩) }, true, none) := by
  unfold register_wallet_permissions
  simp [validate_wallet, validate_blog_id, hw, hb, hroles]

/-- C6: re-registering the same `(wallet, blog)` pair overwrites rather
than unions: after `register(w, b, [EDITOR_ROLE])` followed by
`register(w, b, [DEFAULT_ADMIN_ROLE])`, `get_wallet_blogs(w)` succeeds and
contains exactly one entry for `b`, whose roles are exactly
`[DEFAULT_ADMIN_ROLE]` and whose `last_updated` is the timestamp assigned
by the second register. -/
theorem register_overwrites_last_wins (s : RegState) (w b : String) (t1 t2 : Nat)
    (hreach : RegReach s) (hw : w ≠ "") (hb : b ≠ "") :
    (get_wallet_blogs ((register_wallet_permissions
        ((register_wallet_permissions s w b [EDITOR_ROLE] t1).1)
        w b [DEFAULT_ADMIN_ROLE] t2).1) w).2 = none ∧
    (((get_wallet_blogs ((register_wallet_permissions
        ((register_wallet_permissions s w b [EDITOR_ROLE] t1).1)
        w b [DEFAULT_ADMIN_ROLE] t2).1) w).1.getD []).filter
        (fun e => e.blog_id == b)) = [⟨b, [DEFAULT_ADMIN_ROLE], t2⟩] := by
  have hwn : WalletKeysNodup s := reach_wallet_nodup hreach
  have hwbnodup : (((sget s.wallet_blogs w).getD []).map Prod.fst).Nodup := by
    cases hsg : sget s.wallet_blogs w with
    | none => simp
    | some t0 => simpa using hwn w t0 hsg
  have h1 := register_success_state s w b [EDITOR_ROLE] t1 hw hb (by decide)
  have hst1 : (register_wallet_permissions s w b [EDITOR_ROLE] t1).1.wallet_blogs
      = sset s.wallet_blogs w
          (sset ((sget s.wallet_blogs w).getD []) b ⟨[EDITOR_ROLE], t1⟩) := by
    rw [h1]
  have hin : sget (register_wallet_permissions s w b [EDITOR_ROLE] t1).1.wallet_blogs w
      = some (sset ((sget s.wallet_blogs w).getD []) b ⟨[EDITOR_ROLE], t1⟩) := by
    rw [hst1, sget_sset]
    simp
  have h2 := register_success_state (register_wallet_permissions s w b [EDITOR_ROLE] t1).1
      w b [DEFAULT_ADMIN_ROLE] t2 hw hb (by decide)
  have hst2 : (register_wallet_permissions
        ((register_wallet_permissions s w b [EDITOR_ROLE] t1).1)
        w b [DEFAULT_ADMIN_ROLE] t2).1.wallet_blogs
      = sset (register_wallet_permissions s w b [EDITOR_ROLE] t1).1.wallet_blogs w
          (sset (sset ((sget s.wallet_blogs w).getD []) b ⟨[EDITOR_ROLE], t1⟩)
            b ⟨[DEFAULT_ADMIN_ROLE], t2⟩) := by
    rw [h2]
    simp [hin]
  have hT : sget (register_wallet_permissions
        ((register_wallet_permissions s w b [EDITOR_ROLE] t1).1)
        w b [DEFAULT_ADMIN_ROLE] t2).1.wallet_blogs w
      = some (sset (sset ((sget s.wallet_blogs w).getD []) b ⟨[EDITOR_ROLE], t1⟩)
          b ⟨[DEFAULT_ADMIN_ROLE], t2⟩) := by
    rw [hst2, sget_sset]
    simp
  have hg : get_wallet_blogs (register_wallet_permissions
        ((register_wallet_permissions s w b [EDITOR_ROLE] t1).1)
        w b [DEFAULT_ADMIN_ROLE] t2).1 w
      = (some ((sset (sset ((sget s.wallet_blogs w).getD []) b ⟨[EDITOR_ROLE], t1⟩)
            b ⟨[DEFAULT_ADMIN_ROLE], t2⟩).map
          (fun p => ⟨p.1, p.2.roles, p.2.last_updated⟩)), none) := by
    unfold get_wallet_blogs
    simp [validate_wallet, hw, hT]
  rw [hg]
  refine ⟨rfl, ?_⟩
  have hpred : (fun a : String × RegEntry =>
      ((fun p : String × RegEntry =>
        (⟨p.1, p.2.roles, p.2.last_updated⟩ : BlogPermissionEntry)) a).blog_id == b)
      = (fun p : String × RegEntry => p.1 == b) := rfl
  rw [show ((some ((sset (sset ((sget s.wallet_blogs w).getD []) b ⟨[EDITOR_ROLE], t1⟩)
        b ⟨[DEFAULT_ADMIN_ROLE], t2⟩).map
        (fun p => (⟨p.1, p.2.roles, p.2.last_updated⟩ : BlogPermissionEntry))), none).1.getD [])
      = (sset (sset ((sget s.wallet_blogs w).getD []) b ⟨[EDITOR_ROLE], t1⟩)
          b ⟨[DEFAULT_ADMIN_ROLE], t2⟩).map
          (fun p => (⟨p.1, p.2.roles, p.2.last_updated⟩ : BlogPermissionEntry)) from rfl]
  rw [filter_map_comm, hpred, filter_sset_self (sset_keys_nodup hwbnodup)]
  rfl

/-- Witness for C6 at concrete inputs from the empty registry. -/
theorem register_overwrites_last_wins_witness :
    (get_wallet_blogs ((register_wallet_permissions
        ((register_wallet_permissions empty "w" "b" [EDITOR_ROLE] 1).1)
        "w" "b" [DEFAULT_ADMIN_ROLE] 2).1) "w").2 = none ∧
    (((get_wallet_blogs ((register_wallet_permissions
        ((register_wallet_permissions empty "w" "b" [EDITOR_ROLE] 1).1)
        "w" "b" [DEFAULT_ADMIN_ROLE] 2).1) "w").1.getD []).filter
        (fun e => e.blog_id == "b")) = [⟨"b", [DEFAULT_ADMIN_ROLE], 2⟩] :=
  register_overwrites_last_wins empty "w" "b" 1 2 ⟨[], rfl⟩
    (by decide) (by decide)

end BlogRegistry

theorem tget_tset {V : Type} (t : List (LuaKey × V)) (k k' : LuaKey) (v : V) :
    tget (tset t k v) k' = if k = k' then some v else tget t k' := by
  induction t with
  | nil => simp [tset, tget]
  | cons p rest ih =>
      obtain ⟨k₀, v₀⟩ := p
      by_cases h₀ : k₀ = k
      · subst h₀
        by_cases h : k₀ = k' <;> simp [tset, tget, h]
      · by_cases h : k₀ = k'
        · subst h
          have hk : ¬ k = k₀ := fun hh => h₀ hh.symm
          simp [tset, tget, h₀, hk]
        · simp [tset, tget, h₀, h, ih]

theorem mem_tset {V : Type} {t : List (LuaKey × V)} {k : LuaKey} {v : V} {p : LuaKey × V} :
    p ∈ tset t k v → p = (k, v) ∨ p ∈ t := by
  induction t with
  | nil => simp [tset]
  | cons q rest ih =>
      obtain ⟨k₀, v₀⟩ := q
      by_cases h₀ : k₀ = k
      · subst h₀
        have hs : tset ((k₀, v₀) :: rest) k₀ v = (k₀, v) :: rest := by simp [tset]
        rw [hs]
        simp only [List.mem_cons]
        rintro (h | h)
        · exact Or.inl h
        · exact Or.inr (Or.inr h)
      · have hs : tset ((k₀, v₀) :: rest) k v = (k₀, v₀) :: tset rest k v := by
          simp [tset, h₀]
        rw [hs]
        simp only [List.mem_cons]
        rintro (h | h)
        · exact Or.inr (Or.inl h)
        · rcases ih h with h' | h'
          · exact Or.inl h'
          · exact Or.inr (Or.inr h')

/-- A table all of whose keys are strings yields nothing to `ipairs`. -/
theorem tget_num_of_str_keys {t : List (LuaKey × Bool)}
    (h : ∀ p ∈ t, ∃ r, p.1 = LuaKey.str r) (i : Nat) :
    tget t (LuaKey.num i) = none := by
  induction t with
  | nil => rfl
  | cons p rest ih =>
      obtain ⟨k, v⟩ := p
      obtain ⟨r, hr⟩ := h (k, v) (List.mem_cons_self _ _)
      have hne : ¬ k = LuaKey.num i := by
        rw [show k = LuaKey.str r from hr]
        intro hh
        cases hh
      show (if k = LuaKey.num i then some v else tget rest (LuaKey.num i)) = none
      rw [if_neg hne]
      exact ih (fun q hq => h q (List.mem_cons_of_mem _ hq))

theorem lua_ipairs_of_str_keys {t : List (LuaKey × Bool)}
    (h : ∀ p ∈ t, ∃ r, p.1 = LuaKey.str r) : lua_ipairs t = [] := by
  show ipairs_from t (t.length + 1) 1 = []
  rw [ipairs_from, tget_num_of_str_keys h 1]

namespace AccessControl

theorem validate_account_true (a : String) :
    (validate_account a).1 = true ↔ a ≠ "" := by
  unfold validate_account
  by_cases h : a = "" <;> simp [h]

theorem validate_role_true (s : ACState) (r : String) :
    (validate_role s r).1 = true ↔ r ≠ "" ∧ role_exists s r = true := by
  unfold validate_role
  by_cases h1 : r = "" <;> by_cases h2 : role_exists s r <;> simp [h1, h2]

theorem check_initialized_true (s : ACState) :
    (check_initialized s).1 = true ↔ s.is_initialized = true := by
  unfold check_initialized
  by_cases h : s.is_initialized <;> simp [h]

theorem validate_inputs_split (s : ACState) (a r : String) :
    (validate_inputs s a r).1 =
      ((check_initialized s).1 && (validate_account a).1 && (validate_role s r).1) := by
  unfold validate_inputs
  by_cases h1 : (check_initialized s).1 <;> by_cases h2 : (validate_account a).1 <;>
    by_cases h3 : (validate_role s r).1 <;> simp [h1, h2, h3]

theorem validate_inputs_true (s : ACState) (a r : String) :
    (validate_inputs s a r).1 = true ↔
      s.is_initialized = true ∧ a ≠ "" ∧ r ≠ "" ∧ role_exists s r = true := by
  rw [validate_inputs_split]
  simp [check_initialized_true, validate_account_true, validate_role_true, and_assoc]

theorem roles_has_tset (roles : List (LuaKey × Bool)) (k r : String) :
    roles_has (tset roles (LuaKey.str k) true) r =
      if k = r then true else roles_has roles r := by
  unfold roles_has
  rw [tget_tset]
  by_cases h : k = r
  · simp [h]
  · have hne : ¬ (LuaKey.str k = LuaKey.str r) := by
      intro hh
      injection hh with hh'
      exact h hh'
    simp [h, hne]

theorem tbl_mem_sset_true (t : List (String × Bool)) (a x : String) :
    tbl_mem (sset t a true) x = if a = x then true else tbl_mem t x := by
  unfold tbl_mem
  rw [sget_sset]
  by_cases h : a = x <;> simp [h]

theorem tbl_mem_sdel (t : List (String × Bool)) (a x : String) :
    tbl_mem (sdel t a) x = if a = x then false else tbl_mem t x := by
  unfold tbl_mem
  rw [sget_sdel]
  by_cases h : a = x <;> simp [h]

theorem wf_start : WF startState := by
  constructor
  · intro p hp
    simp [startState] at hp
  · intro r
    simp [startState, role_exists, roles_has, tget, sget]
  · intro r t a b hseq hmem
    simp [startState, sget] at hseq
  · intro r hr
    simp [startState, role_exists, roles_has, tget] at hr
  · intro hinit
    simp [startState] at hinit

theorem wf_set_events {s : ACState} (h : WF s) (ev : List ACEvent) :
    WF { s with events := ev } :=
  ⟨h.1, h.2, h.3, h.4, h.5⟩

theorem log_role_update_eq (s : ACState) (c m r : String) (o n : Option String)
    (now : Nat) :
    log_role_update s c m r o n now =
      { s with events := if s.is_log_enabled then
          s.events ++ [⟨m, r, none, o, n, c, now⟩] else s.events } := by
  unfold log_role_update
  by_cases h : s.is_log_enabled
  · simp [h]
  · have hf : s.is_log_enabled = false := by simpa using h
    cases s
    simp_all

theorem log_role_account_eq (s : ACState) (c m r a : String) (now : Nat) :
    log_role_account s c m r a now =
      { s with events := if s.is_log_enabled then
          s.events ++ [⟨m, r, some a, none, none, c, now⟩] else s.events } := by
  unfold log_role_account
  by_cases h : s.is_log_enabled
  · simp [h]
  · have hf : s.is_log_enabled = false := by simpa using h
    cases s
    simp_all

theorem wf_log_role_update {s : ACState} (h : WF s) (c m r : String)
    (o n : Option String) (now : Nat) : WF (log_role_update s c m r o n now) := by
  rw [log_role_update_eq]
  exact wf_set_events h _

theorem wf_log_role_account {s : ACState} (h : WF s) (c m r a : String)
    (now : Nat) : WF (log_role_account s c m r a now) := by
  rw [log_role_account_eq]
  exact wf_set_events h _

theorem has_role_eq_mem (s : ACState) (a r : String)
    (h : (validate_inputs s a r).1 = true) :
    (has_role s a r).1 = mem_lookup s r a := by
  unfold has_role
  simp [h]

theorem grant_role_cases (s : ACState) (c r a : String) (now : Nat) :
    ((grant_role s c r a now).1 = s ∧ (grant_role s c r a now).2.1 = false) ∨
    (c ≠ "" ∧ (validate_inputs s a r).1 = true ∧
     (can_administer_role s c r).1 = true ∧ mem_lookup s r a = false ∧
     grant_role s c r a now =
       (log_role_account (member_added s r a) c "RoleGranted" r a now, true, none)) := by
  unfold grant_role
  by_cases h1 : (validate_account c).1
  · by_cases h2 : (validate_inputs s a r).1
    · by_cases h3 : (can_administer_role s c r).1
      · by_cases h4 : (has_role s a r).1
        · left; simp [h1, h2, h3, h4]
        · right
          have hm : mem_lookup s r a = false := by
            rw [← has_role_eq_mem s a r h2]
            simpa using h4
          exact ⟨(validate_account_true c).mp h1, h2, h3, hm, by simp [h1, h2, h3, h4]⟩
      · left; simp [h1, h2, h3]
    · left; simp [h1, h2]
  · left; simp [h1]

theorem revoke_role_cases (s : ACState) (c r a : String) (now : Nat) :
    ((revoke_role s c r a now).1 = s ∧ (revoke_role s c r a now).2.1 = false) ∨
    ((validate_inputs s a r).1 = true ∧ (can_administer_role s c r).1 = true ∧
     mem_lookup s r a = true ∧ would_remove_last_admin s r a = false ∧
     revoke_role s c r a now =
       (log_role_account (member_removed s r a) c "RoleRevoked" r a now, true, none)) := by
  unfold revoke_role
  by_cases h1 : (validate_inputs s a r).1
  · by_cases h2 : (can_administer_role s c r).1
    · by_cases h3 : (has_role s a r).1
      · by_cases h4 : would_remove_last_admin s r a
        · left; simp [h1, h2, h3, h4]
        · right
          have hm : mem_lookup s r a = true := by
            rw [← has_role_eq_mem s a r h1]
            exact h3
          exact ⟨h1, h2, hm, by simpa using h4, by simp [h1, h2, h3, h4]⟩
      · left; simp [h1, h2, h3]
    · left; simp [h1, h2]
  · left; simp [h1]

theorem renounce_role_cases (s : ACState) (c r : String) (now : Nat) :
    ((renounce_role s c r now).1 = s ∧ (renounce_role s c r now).2.1 = false) ∨
    ((validate_inputs s c r).1 = true ∧ mem_lookup s r c = true ∧
     would_remove_last_admin s r c = false ∧
     renounce_role s c r now =
       (log_role_account (member_removed s r c) c "RoleRenounced" r c now, true, none)) := by
  unfold renounce_role
  by_cases h1 : (validate_inputs s c r).1
  · by_cases h2 : (has_role s c r).1
    · by_cases h3 : would_remove_last_admin s r c
      · left; simp [h1, h2, h3]
      · right
        have hm : mem_lookup s r c = true := by
          rw [← has_role_eq_mem s c r h1]
          exact h2
        exact ⟨h1, hm, by simpa using h3, by simp [h1, h2, h3]⟩
    · left; simp [h1, h2]
  · left; simp [h1]

theorem create_role_cases (s : ACState) (c r : String) (aro : Option String)
    (now : Nat) :
    ((create_role s c r aro now).1 = s ∧ (create_role s c r aro now).2.1 = false) ∨
    ((validate_inputs s c (aro.getD DEFAULT_ADMIN_ROLE)).1 = true ∧
     role_exists s r = false ∧
     (can_administer_role s c (aro.getD DEFAULT_ADMIN_ROLE)).1 = true ∧
     create_role s c r aro now =
       (log_role_update (role_created s r (aro.getD DEFAULT_ADMIN_ROLE))
          c "RoleCreated" r none (some (aro.getD DEFAULT_ADMIN_ROLE)) now,
        true, none)) := by
  unfold create_role
  by_cases h1 : (validate_inputs s c (aro.getD DEFAULT_ADMIN_ROLE)).1
  · by_cases h2 : role_exists s r
    · left; simp [h1, h2]
    · by_cases h3 : (can_administer_role s c (aro.getD DEFAULT_ADMIN_ROLE)).1
      · right
        exact ⟨h1, by simpa using h2, h3, by simp [h1, h2, h3]⟩
      · left; simp [h1, h2, h3]
  · left; simp [h1]

theorem set_role_admin_cases (s : ACState) (c r ar : String) (now : Nat) :
    ((set_role_admin s c r ar now).1 = s ∧ (set_role_admin s c r ar now).2.1 = false) ∨
    ((can_administer_role s c r).1 = true ∧ (validate_role s ar).1 = true ∧
     set_role_admin s c r ar now =
       (log_role_update (admin_rebound s r ar) c "RoleAdminChanged" r
          (sget s.role_admins r) (some ar) now, true, none)) := by
  unfold set_role_admin
  by_cases h1 : (can_administer_role s c r).1
  · by_cases h2 : (validate_role s ar).1
    · right
      exact ⟨h1, h2, by simp [h1, h2]⟩
    · left; simp [h1, h2]
  · left; simp [h1]

theorem init_cases (s : ACState) (c o : String) (d : Bool) (now : Nat) :
    ((init s c o d now).1 = s ∧ (init s c o d now).2.1 = false) ∨
    (s.is_initialized = false ∧ c ≠ "" ∧ o ≠ "" ∧
     init s c o d now =
       (log_role_account
         (log_role_update (initialized_state s o d) c "RoleCreated"
           DEFAULT_ADMIN_ROLE none (some DEFAULT_ADMIN_ROLE) now)
         c "RoleGranted" DEFAULT_ADMIN_ROLE o now, true, none)) := by
  unfold init
  by_cases h1 : s.is_initialized
  · left; simp [h1]
  · by_cases h2 : (validate_account c).1
    · by_cases h3 : (validate_account o).1
      · right
        exact ⟨by simpa using h1, (validate_account_true c).mp h2,
          (validate_account_true o).mp h3, by simp [h1, h2, h3]⟩
      · left; simp [h1, h2, h3]
    · left; simp [h1, h2]

theorem clear_events_cases (s : ACState) :
    ((clear_events s).1 = s ∧ (clear_events s).2.1 = false) ∨
    (clear_events s).1 = { s with events := [] } := by
  unfold clear_events
  by_cases h : (check_initialized s).1
  · right; simp [h]
  · left; simp [h]

theorem member_tbl_flags_getD {s : ACState} (h : WF s) (role : String) :
    ∀ a b, (a, b) ∈ (sget s.role_members role).getD [] → b = true ∧ a ≠ "" := by
  intro a b hmem
  cases hsg : sget s.role_members role with
  | none => simp [hsg] at hmem
  | some t0 =>
      rw [hsg] at hmem
      exact h.member_flags role t0 a b hsg hmem

theorem member_tbl_flags_sset {t : List (String × Bool)}
    (ht : ∀ a b, (a, b) ∈ t → b = true ∧ a ≠ "") {x : String} (hx : x ≠ "") :
    ∀ a b, (a, b) ∈ sset t x true → b = true ∧ a ≠ "" := by
  intro a b hmem
  rcases mem_sset hmem with h | h
  · simp only [Prod.mk.injEq] at h
    obtain ⟨rfl, rfl⟩ := h
    exact ⟨rfl, hx⟩
  · exact ht a b h

theorem member_tbl_flags_sdel {t : List (String × Bool)}
    (ht : ∀ a b, (a, b) ∈ t → b = true ∧ a ≠ "") (x : String) :
    ∀ a b, (a, b) ∈ sdel t x → b = true ∧ a ≠ "" :=
  fun a b hmem => ht a b (mem_sdel.mp hmem).1

/-- Replacing one member table (of a declared role) by another whose
flags are well-formed preserves `WF`. -/
theorem wf_member_update {s : ACState} (h : WF s) {role : String}
    (hrex : role_exists s role = true) (t' : List (String × Bool))
    (ht' : ∀ a b, (a, b) ∈ t' → b = true ∧ a ≠ "") :
    WF { s with role_members := sset s.role_members role t' } := by
  constructor
  · exact h.roles_keys
  · intro r
    show role_exists s r = true ↔ (sget (sset s.role_members role t') r).isSome = true
    rw [sget_sset]
    by_cases hr : role = r
    · subst hr
      simp [hrex]
    · simp only [if_neg hr]
      exact h.members_defined r
  · intro r t a b hseq hmem
    rw [show sget ({ s with role_members := sset s.role_members role t' } :
        ACState).role_members r = sget (sset s.role_members role t') r from rfl,
      sget_sset] at hseq
    by_cases hr : role = r
    · rw [if_pos hr] at hseq
      cases hseq
      exact ht' a b hmem
    · rw [if_neg hr] at hseq
      exact h.member_flags r t a b hseq hmem
  · exact h.admin_defined
  · exact h.root_declared

theorem wf_member_added {s : ACState} (h : WF s) {role account : String}
    (hrex : role_exists s role = true) (hacc : account ≠ "") :
    WF (member_added s role account) :=
  wf_member_update h hrex _
    (member_tbl_flags_sset (member_tbl_flags_getD h role) hacc)

theorem wf_member_removed {s : ACState} (h : WF s) {role : String}
    (account : String) (hrex : role_exists s role = true) :
    WF (member_removed s role account) :=
  wf_member_update h hrex _
    (member_tbl_flags_sdel (member_tbl_flags_getD h role) account)

theorem wf_grant {s : ACState} (h : WF s) (c r a : String) (now : Nat) :
    WF (grant_role s c r a now).1 := by
  rcases grant_role_cases s c r a now with ⟨heq, _⟩ | ⟨_, hvi, _, _, heq⟩
  · rw [heq]; exact h
  · rw [heq]
    obtain ⟨_, ha, _, hrex⟩ := (validate_inputs_true s a r).mp hvi
    exact wf_log_role_account (wf_member_added h hrex ha) _ _ _ _ _

theorem wf_revoke {s : ACState} (h : WF s) (c r a : String) (now : Nat) :
    WF (revoke_role s c r a now).1 := by
  rcases revoke_role_cases s c r a now with ⟨heq, _⟩ | ⟨hvi, _, _, _, heq⟩
  · rw [heq]; exact h
  · rw [heq]
    obtain ⟨_, _, _, hrex⟩ := (validate_inputs_true s a r).mp hvi
    exact wf_log_role_account (wf_member_removed h a hrex) _ _ _ _ _

theorem wf_renounce {s : ACState} (h : WF s) (c r : String) (now : Nat) :
    WF (renounce_role s c r now).1 := by
  rcases renounce_role_cases s c r now with ⟨heq, _⟩ | ⟨hvi, _, _, heq⟩
  · rw [heq]; exact h
  · rw [heq]
    obtain ⟨_, _, _, hrex⟩ := (validate_inputs_true s c r).mp hvi
    exact wf_log_role_account (wf_member_removed h c hrex) _ _ _ _ _

theorem wf_role_created {s : ACState} (h : WF s) {ar : String} (r : String)
    (har : role_exists s ar = true) (harne : ar ≠ "") :
    WF (role_created s r ar) := by
  constructor
  · intro p hp
    rcases mem_tset hp with rfl | hp'
    · exact ⟨⟨r, rfl⟩, rfl⟩
    · exact h.roles_keys p hp'
  · intro x
    show roles_has (tset s.roles (LuaKey.str r) true) x = true ↔
      (sget (sset s.role_members r []) x).isSome = true
    rw [roles_has_tset, sget_sset]
    by_cases hx : r = x
    · simp [hx]
    · simp only [if_neg hx]
      exact h.members_defined x
  · intro x t a b hseq hmem
    rw [show sget (role_created s r ar).role_members x =
        sget (sset s.role_members r []) x from rfl, sget_sset] at hseq
    by_cases hx : r = x
    · rw [if_pos hx] at hseq
      cases hseq
      cases hmem
    · rw [if_neg hx] at hseq
      exact h.member_flags x t a b hseq hmem
  · intro x hx
    have hx' : roles_has (tset s.roles (LuaKey.str r) true) x = true := hx
    rw [roles_has_tset] at hx'
    show ∃ a2, sget (sset s.role_admins r ar) x = some a2 ∧
      roles_has (tset s.roles (LuaKey.str r) true) a2 = true ∧ a2 ≠ ""
    rw [sget_sset]
    by_cases hrx : r = x
    · refine ⟨ar, by simp [hrx], ?_, harne⟩
      rw [roles_has_tset]
      by_cases hrar : r = ar
      · simp [hrar]
      · rw [if_neg hrar]
        exact har
    · rw [if_neg hrx] at hx'
      obtain ⟨a2, hsga, ha2, ha2ne⟩ := h.admin_defined x hx'
      refine ⟨a2, by simp [hrx, hsga], ?_, ha2ne⟩
      rw [roles_has_tset]
      by_cases hra2 : r = a2
      · simp [hra2]
      · rw [if_neg hra2]
        exact ha2
  · intro hinit
    show roles_has (tset s.roles (LuaKey.str r) true) DEFAULT_ADMIN_ROLE = true
    rw [roles_has_tset]
    by_cases hroot : r = DEFAULT_ADMIN_ROLE
    · simp [hroot]
    · rw [if_neg hroot]
      exact h.root_declared hinit

theorem wf_create {s : ACState} (h : WF s) (c r : String) (aro : Option String)
    (now : Nat) : WF (create_role s c r aro now).1 := by
  rcases create_role_cases s c r aro now with ⟨heq, _⟩ | ⟨hvi, _, _, heq⟩
  · rw [heq]; exact h
  · rw [heq]
    obtain ⟨_, _, harne, har⟩ := (validate_inputs_true s c _).mp hvi
    exact wf_log_role_update (wf_role_created h r har harne) _ _ _ _ _ _

theorem wf_admin_rebound {s : ACState} (h : WF s) {ar : String} (r : String)
    (har : role_exists s ar = true) (harne : ar ≠ "") :
    WF (admin_rebound s r ar) := by
  constructor
  · exact h.roles_keys
  · exact h.members_defined
  · exact h.member_flags
  · intro x hx
    show ∃ a2, sget (sset s.role_admins r ar) x = some a2 ∧
      role_exists s a2 = true ∧ a2 ≠ ""
    rw [sget_sset]
    by_cases hrx : r = x
    · exact ⟨ar, by simp [hrx], har, harne⟩
    · obtain ⟨a2, hsga, ha2, ha2ne⟩ := h.admin_defined x hx
      exact ⟨a2, by simp [hrx, hsga], ha2, ha2ne⟩
  · exact h.root_declared

theorem wf_set_admin {s : ACState} (h : WF s) (c r ar : String) (now : Nat) :
    WF (set_role_admin s c r ar now).1 := by
  rcases set_role_admin_cases s c r ar now with ⟨heq, _⟩ | ⟨_, hvr, heq⟩
  · rw [heq]; exact h
  · rw [heq]
    obtain ⟨harne, har⟩ := (validate_role_true s ar).mp hvr
    exact wf_log_role_update (wf_admin_rebound h r har harne) _ _ _ _ _ _

theorem initialized_state_members (s : ACState) (o : String) (d : Bool) :
    (initialized_state s o d).role_members =
      sset (sset s.role_members DEFAULT_ADMIN_ROLE [])
        DEFAULT_ADMIN_ROLE [(o, true)] := by
  show sset (sset s.role_members DEFAULT_ADMIN_ROLE []) DEFAULT_ADMIN_ROLE
      (sset ((sget (sset s.role_members DEFAULT_ADMIN_ROLE [])
        DEFAULT_ADMIN_ROLE).getD []) o true) = _
  rw [sget_sset]
  simp [sset]

theorem wf_initialized_state {s : ACState} (h : WF s) {o : String} (ho : o ≠ "")
    (d : Bool) : WF (initialized_state s o d) := by
  constructor
  · intro p hp
    rcases mem_tset hp with rfl | hp'
    · exact ⟨⟨DEFAULT_ADMIN_ROLE, rfl⟩, rfl⟩
    · exact h.roles_keys p hp'
  · intro x
    show roles_has (tset s.roles (LuaKey.str DEFAULT_ADMIN_ROLE) true) x = true ↔
      (sget (initialized_state s o d).role_members x).isSome = true
    rw [initialized_state_members, roles_has_tset, sget_sset, sget_sset]
    by_cases hx : DEFAULT_ADMIN_ROLE = x
    · simp [hx]
    · simp only [if_neg hx]
      exact h.members_defined x
  · intro x t a b hseq hmem
    rw [initialized_state_members, sget_sset, sget_sset] at hseq
    by_cases hx : DEFAULT_ADMIN_ROLE = x
    · rw [if_pos hx] at hseq
      cases hseq
      have hone := List.mem_singleton.mp hmem
      simp only [Prod.mk.injEq] at hone
      obtain ⟨rfl, rfl⟩ := hone
      exact ⟨rfl, ho⟩
    · rw [if_neg hx, if_neg hx] at hseq
      exact h.member_flags x t a b hseq hmem
  · intro x hx
    have hx' : roles_has (tset s.roles (LuaKey.str DEFAULT_ADMIN_ROLE) true) x = true := hx
    rw [roles_has_tset] at hx'
    show ∃ a2, sget (sset s.role_admins DEFAULT_ADMIN_ROLE DEFAULT_ADMIN_ROLE) x
        = some a2 ∧
      roles_has (tset s.roles (LuaKey.str DEFAULT_ADMIN_ROLE) true) a2 = true ∧
      a2 ≠ ""
    rw [sget_sset]
    by_cases hrx : DEFAULT_ADMIN_ROLE = x
    · refine ⟨DEFAULT_ADMIN_ROLE, by simp [hrx], ?_, by decide⟩
      rw [roles_has_tset]
      simp
    · rw [if_neg hrx] at hx'
      obtain ⟨a2, hsga, ha2, ha2ne⟩ := h.admin_defined x hx'
      refine ⟨a2, by simp [hrx, hsga], ?_, ha2ne⟩
      rw [roles_has_tset]
      by_cases hra2 : DEFAULT_ADMIN_ROLE = a2
      · simp [hra2]
      · rw [if_neg hra2]
        exact ha2
  · intro _
    show roles_has (tset s.roles (LuaKey.str DEFAULT_ADMIN_ROLE) true)
      DEFAULT_ADMIN_ROLE = true
    rw [roles_has_tset]
    simp

theorem wf_init {s : ACState} (h : WF s) (c o : String) (d : Bool) (now : Nat) :
    WF (init s c o d now).1 := by
  rcases init_cases s c o d now with ⟨heq, _⟩ | ⟨_, _, ho, heq⟩
  · rw [heq]; exact h
  · rw [heq]
    exact wf_log_role_account
      (wf_log_role_update (wf_initialized_state h ho d) _ _ _ _ _ _) _ _ _ _ _

theorem wf_bulk_loop (c r : String) (now : Nat) :
    ∀ (accounts : List String) (s : ACState), WF s →
      WF (bulk_loop c r now s accounts).1 := by
  intro accounts
  induction accounts with
  | nil => intro s h; exact h
  | cons a rest ih =>
      intro s h
      have hred : (bulk_loop c r now s (a :: rest)).1 =
          (bulk_loop c r now (grant_role s c r a now).1 rest).1 := rfl
      rw [hred]
      exact ih _ (wf_grant h c r a now)

theorem wf_bulk {s : ACState} (h : WF s) (c r : String) (accounts : List String)
    (now : Nat) : WF (bulk_grant_role s c r accounts now).1 := by
  unfold bulk_grant_role
  by_cases h1 : (check_initialized s).1
  · simpa [h1] using wf_bulk_loop c r now accounts s h
  · simpa [h1] using h

theorem wf_clear {s : ACState} (h : WF s) : WF (clear_events s).1 := by
  rcases clear_events_cases s with ⟨heq, _⟩ | heq
  · rw [heq]; exact h
  · rw [heq]
    exact wf_set_events h []

theorem wf_apply {s : ACState} (h : WF s) (op : ACOp) : WF (ac_apply s op) := by
  cases op with
  | op_init c o d now => exact wf_init h c o d now
  | op_create c r aro now => exact wf_create h c r aro now
  | op_grant c r a now => exact wf_grant h c r a now
  | op_revoke c r a now => exact wf_revoke h c r a now
  | op_renounce c r now => exact wf_renounce h c r now
  | op_set_admin c r ar now => exact wf_set_admin h c r ar now
  | op_bulk c r accounts now => exact wf_bulk h c r accounts now
  | op_clear_events => exact wf_clear h

theorem sget_mem {V : Type} {t : List (String × V)} {k : String} {v : V}
    (h : sget t k = some v) : (k, v) ∈ t := by
  induction t with
  | nil => cases h
  | cons p rest ih =>
      obtain ⟨k₀, v₀⟩ := p
      by_cases hk : k₀ = k
      · subst hk
        rw [show sget ((k₀, v₀) :: rest) k₀ =
            (if k₀ = k₀ then some v₀ else sget rest k₀) from rfl, if_pos rfl] at h
        cases h
        exact List.mem_cons_self _ _
      · rw [show sget ((k₀, v₀) :: rest) k =
            (if k₀ = k then some v₀ else sget rest k) from rfl, if_neg hk] at h
        exact List.mem_cons_of_mem _ (ih h)

theorem log_role_account_fields (s : ACState) (c m r a : String) (now : Nat) :
    (log_role_account s c m r a now).is_initialized = s.is_initialized ∧
    (log_role_account s c m r a now).roles = s.roles ∧
    (log_role_account s c m r a now).role_members = s.role_members ∧
    (log_role_account s c m r a now).role_admins = s.role_admins := by
  rw [log_role_account_eq]
  exact ⟨rfl, rfl, rfl, rfl⟩

theorem log_role_update_fields (s : ACState) (c m r : String)
    (o n : Option String) (now : Nat) :
    (log_role_update s c m r o n now).is_initialized = s.is_initialized ∧
    (log_role_update s c m r o n now).roles = s.roles ∧
    (log_role_update s c m r o n now).role_members = s.role_members ∧
    (log_role_update s c m r o n now).role_admins = s.role_admins := by
  rw [log_role_update_eq]
  exact ⟨rfl, rfl, rfl, rfl⟩

theorem mem_lookup_congr {s s' : ACState} (h : s'.role_members = s.role_members)
    (x y : String) : mem_lookup s' x y = mem_lookup s x y := by
  unfold mem_lookup
  rw [h]

theorem tbl_mem_getD (s : ACState) (x y : String) :
    tbl_mem ((sget s.role_members x).getD []) y = mem_lookup s x y := by
  unfold mem_lookup
  cases hsg : sget s.role_members x <;> simp [hsg, tbl_mem, sget]

theorem mem_lookup_member_added (s : ACState) (role a x y : String) :
    mem_lookup (member_added s role a) x y =
      if role = x ∧ a = y then true else mem_lookup s x y := by
  have hstep : mem_lookup (member_added s role a) x y =
      (if role = x then tbl_mem (sset ((sget s.role_members role).getD []) a true) y
       else mem_lookup s x y) := by
    unfold mem_lookup member_added
    rw [sget_sset]
    by_cases hr : role = x
    · simp [hr]
    · simp only [if_neg hr]
  rw [hstep]
  by_cases hr : role = x
  · rw [if_pos hr, tbl_mem_sset_true]
    by_cases ha : a = y
    · simp [hr, ha]
    · simp only [if_neg ha, if_neg (fun hc => ha (And.right hc))]
      rw [tbl_mem_getD]
      rw [hr]
  · simp only [if_neg hr, if_neg (fun hc => hr (And.left hc))]

theorem mem_lookup_ne_empty {s : ACState} (h : WF s) (role : String) :
    mem_lookup s role "" = false := by
  unfold mem_lookup
  cases hsg : sget s.role_members role with
  | none => rfl
  | some t =>
      show tbl_mem t "" = false
      unfold tbl_mem
      cases hsa : sget t "" with
      | none => rfl
      | some b =>
          have hflag := h.member_flags role t "" b hsg (sget_mem hsa)
          exact absurd rfl hflag.2

theorem has_role_char (s : ACState) (c x : String) :
    (has_role s c x).1 = ((validate_inputs s c x).1 && mem_lookup s x c) := by
  unfold has_role
  by_cases h : (validate_inputs s c x).1 <;> simp [h]

theorem validate_inputs_congr {s s' : ACState}
    (hi : s'.is_initialized = s.is_initialized) (hr : s'.roles = s.roles)
    (a x : String) : validate_inputs s' a x = validate_inputs s a x := by
  unfold validate_inputs check_initialized validate_role role_exists roles_has
  rw [hi, hr]

theorem get_role_admin_congr {s s' : ACState}
    (hi : s'.is_initialized = s.is_initialized) (hr : s'.roles = s.roles)
    (ha : s'.role_admins = s.role_admins) (x : String) :
    get_role_admin s' x = get_role_admin s x := by
  unfold get_role_admin check_initialized validate_role role_exists roles_has
  rw [hi, hr, ha]

theorem can_administer_char (s : ACState) (c r : String) :
    (can_administer_role s c r).1 =
      (match get_role_admin s r with
       | (_, some _) => false
       | (admin_role, none) =>
           ((match admin_role with
             | some ar => (has_role s c ar).1
             | none => false) || (has_role s c DEFAULT_ADMIN_ROLE).1)) := by
  unfold can_administer_role
  cases hga : get_role_admin s r with
  | mk v e => cases e <;> simp

theorem can_administer_mono {s s' : ACState}
    (hi : s'.is_initialized = s.is_initialized) (hr : s'.roles = s.roles)
    (ha : s'.role_admins = s.role_admins)
    (hm : ∀ x y, mem_lookup s x y = true → mem_lookup s' x y = true)
    {c r : String} (hcan : (can_administer_role s c r).1 = true) :
    (can_administer_role s' c r).1 = true := by
  have hhr : ∀ x, (has_role s c x).1 = true → (has_role s' c x).1 = true := by
    intro x hx
    rw [has_role_char] at hx ⊢
    rw [validate_inputs_congr hi hr]
    obtain ⟨h1, h2⟩ : (validate_inputs s c x).1 = true ∧ mem_lookup s x c = true := by
      simpa using hx
    simp [h1, hm _ _ h2]
  rw [can_administer_char] at hcan ⊢
  rw [get_role_admin_congr hi hr ha]
  cases hget : get_role_admin s r with
  | mk v e =>
      rw [hget] at hcan
      cases e with
      | some err => simp at hcan
      | none =>
          cases v with
          | none =>
              have hcan2 : ((false : Bool) || (has_role s c DEFAULT_ADMIN_ROLE).1)
                  = true := hcan
              have hgoal : ((false : Bool) || (has_role s' c DEFAULT_ADMIN_ROLE).1)
                  = true := by
                simp only [Bool.false_or] at hcan2 ⊢
                exact hhr _ hcan2
              exact hgoal
          | some ar =>
              have hcan2 : ((has_role s c ar).1 || (has_role s c DEFAULT_ADMIN_ROLE).1)
                  = true := hcan
              have hcan3 : (has_role s c ar).1 = true ∨
                  (has_role s c DEFAULT_ADMIN_ROLE).1 = true := by
                simpa using hcan2
              have hgoal : ((has_role s' c ar).1 || (has_role s' c DEFAULT_ADMIN_ROLE).1)
                  = true := by
                rcases hcan3 with h | h <;> simp [hhr _ h]
              exact hgoal

theorem has_role_empty_account (s : ACState) (x : String) :
    (has_role s "" x).1 = false := by
  rw [has_role_char]
  have hvi : (validate_inputs s "" x).1 = false := by
    by_contra hn
    have hx := (validate_inputs_true s "" x).mp (by simpa using hn)
    exact hx.2.1 rfl
  simp [hvi]

theorem validate_role_isSome_of_false (s : ACState) (r : String)
    (h : (validate_role s r).1 = false) : (validate_role s r).2.isSome = true := by
  unfold validate_role at h ⊢
  by_cases h1 : r = ""
  · simp [h1]
  · by_cases h2 : role_exists s r <;> simp [h1, h2] at h ⊢

theorem check_initialized_of_false (s : ACState)
    (h : (check_initialized s).1 = false) :
    check_initialized s = (false, some NOT_INITIALIZED) := by
  unfold check_initialized at h ⊢
  by_cases hi : s.is_initialized <;> simp [hi] at h ⊢

/-- A caller that can administer some role passed the role validation and
holds at least one role, so the state is initialized, the role is
declared and non-empty, and the caller is a non-empty string (on a
well-formed state). -/
theorem can_administer_true_elim {s : ACState} {c r : String}
    (hcan : (can_administer_role s c r).1 = true) :
    s.is_initialized = true ∧ r ≠ "" ∧ role_exists s r = true ∧ c ≠ "" := by
  rw [can_administer_char] at hcan
  cases hget : get_role_admin s r with
  | mk v e =>
      rw [hget] at hcan
      cases e with
      | some err => simp at hcan
      | none =>
          have hvalid : (check_initialized s).1 = true ∧ (validate_role s r).1 = true := by
            by_cases h1 : (check_initialized s).1
            · by_cases h2 : (validate_role s r).1
              · exact ⟨h1, h2⟩
              · exfalso
                have he2 : (get_role_admin s r).2 = (validate_role s r).2 := by
                  unfold get_role_admin
                  simp [h1, h2]
                rw [hget] at he2
                have hs := validate_role_isSome_of_false s r (by simpa using h2)
                rw [← he2] at hs
                simp at hs
            · exfalso
              have he2 : (get_role_admin s r).2 = some NOT_INITIALIZED := by
                unfold get_role_admin
                rw [check_initialized_of_false s (by simpa using h1)]
                simp
              rw [hget] at he2
              cases he2
          refine ⟨(check_initialized_true s).mp hvalid.1,
            ((validate_role_true s r).mp hvalid.2).1,
            ((validate_role_true s r).mp hvalid.2).2, ?_⟩
          intro hc
          subst hc
          cases v with
          | none =>
              have hcan2 : ((false : Bool) || (has_role s "" DEFAULT_ADMIN_ROLE).1)
                  = true := hcan
              rw [has_role_empty_account] at hcan2
              simp at hcan2
          | some ar =>
              have hcan2 : ((has_role s "" ar).1 || (has_role s "" DEFAULT_ADMIN_ROLE).1)
                  = true := hcan
              rw [has_role_empty_account, has_role_empty_account] at hcan2
              simp at hcan2

/-- Every state reachable through the public operations is well-formed. -/
theorem reach_wf {s : ACState} (hr : ACReach s) : WF s := by
  obtain ⟨ops, rfl⟩ := hr
  have key : ∀ s0 : ACState, WF s0 → WF (ops.foldl ac_apply s0) := by
    induction ops with
    | nil => intro s0 h; exact h
    | cons op rest ih =>
        intro s0 h
        rw [List.foldl_cons]
        exact ih _ (wf_apply h op)
  exact key startState wf_start

/-- C8 (code bug): on every reachable initialized engine state,
`get_all_roles` replies with the *empty* list — even though at least the
root role is declared — and `get_user_roles` likewise replies with the
empty list for every account: both traverse the string-keyed `roles`
table with `ipairs`, which probes integer keys `1, 2, …` that never
exist. -/
theorem read_queries_return_empty (s : ACState)
    (hreach : ACReach s) (hinit : s.is_initialized = true) :
    get_all_roles s = (some [], none) ∧
    (∀ a, get_user_roles s a = some (some [], none)) ∧
    role_exists s DEFAULT_ADMIN_ROLE = true := by
  have hwf := reach_wf hreach
  have hips : lua_ipairs s.roles = [] :=
    lua_ipairs_of_str_keys (fun p hp => (hwf.roles_keys p hp).1)
  refine ⟨?_, ?_, hwf.root_declared hinit⟩
  · unfold get_all_roles
    simp [check_initialized, hinit, hips]
  · intro a
    unfold get_user_roles
    simp [check_initialized, hinit, hips]

/-- Witness for C8 at the state produced by `init("A", "A")`, in which
the root role is declared yet both read queries return the empty list. -/
theorem read_queries_return_empty_witness :
    get_all_roles (ac_run [ACOp.op_init "A" "A" false 0]) = (some [], none) ∧
    (∀ a, get_user_roles (ac_run [ACOp.op_init "A" "A" false 0]) a
      = some (some [], none)) ∧
    role_exists (ac_run [ACOp.op_init "A" "A" false 0]) DEFAULT_ADMIN_ROLE = true :=
  read_queries_return_empty (ac_run [ACOp.op_init "A" "A" false 0])
    ⟨[ACOp.op_init "A" "A" false 0], rfl⟩ (by decide)

theorem grant_role_empty_role (s : ACState) (c a : String) (now : Nat) :
    (grant_role s c "" a now).1 = s ∧ (grant_role s c "" a now).2.1 = false ∧
    (s.is_initialized = true → c ≠ "" → a ≠ "" →
      (grant_role s c "" a now).2.2 = some INVALID_ROLE) := by
  have hvi_false : (validate_inputs s a "").1 = false := by
    by_contra hn
    have hx := (validate_inputs_true s a "").mp (by simpa using hn)
    exact hx.2.2.1 rfl
  unfold grant_role
  by_cases hc : (validate_account c).1
  · refine ⟨by simp [hc, hvi_false], by simp [hc, hvi_false], ?_⟩
    intro hinit hcne hane
    have hvi2 : (validate_inputs s a "").2 = some INVALID_ROLE := by
      unfold validate_inputs
      simp [check_initialized, hinit, validate_account, hane, validate_role]
    simp [hc, hvi_false, hvi2]
  · refine ⟨by simp [hc], by simp [hc], ?_⟩
    intro _ hcne _
    exact absurd ((validate_account_true c).mpr hcne) hc

theorem revoke_role_empty_role (s : ACState) (c a : String) (now : Nat) :
    (revoke_role s c "" a now).1 = s ∧ (revoke_role s c "" a now).2.1 = false ∧
    (s.is_initialized = true → a ≠ "" →
      (revoke_role s c "" a now).2.2 = some INVALID_ROLE) := by
  have hvi_false : (validate_inputs s a "").1 = false := by
    by_contra hn
    have hx := (validate_inputs_true s a "").mp (by simpa using hn)
    exact hx.2.2.1 rfl
  unfold revoke_role
  refine ⟨by simp [hvi_false], by simp [hvi_false], ?_⟩
  intro hinit hane
  have hvi2 : (validate_inputs s a "").2 = some INVALID_ROLE := by
    unfold validate_inputs
    simp [check_initialized, hinit, validate_account, hane, validate_role]
  simp [hvi_false, hvi2]

/-- C10 (counterexample): concrete run refuting the claim as stated.
After `init("A", "A")`, `create_role("A", "", nil)` succeeds and
`role_exists("")` is true — but `grant_role("A", "", "B")`, which the
claim says works like for any other role, fails with the invalid-role
error and changes nothing. -/
theorem create_empty_role_name_counterexample :
    (create_role (ac_run [ACOp.op_init "A" "A" false 0]) "A" "" none 1).2.1 = true ∧
    role_exists (create_role (ac_run [ACOp.op_init "A" "A" false 0]) "A" "" none 1).1
      "" = true ∧
    grant_role (create_role (ac_run [ACOp.op_init "A" "A" false 0]) "A" "" none 1).1
        "A" "" "B" 2 =
      ((create_role (ac_run [ACOp.op_init "A" "A" false 0]) "A" "" none 1).1,
       false, some INVALID_ROLE) := by
  refine ⟨by decide, by decide, by decide⟩

/-- C10 (amended): `create_role` indeed never validates the shape of the
new role name — with an authorized caller it succeeds for the empty
string and `role_exists("")` becomes true — but the empty-string role can
*not* then be granted or revoked like any other role: `validate_role`
rejects `""` before consulting the declared-roles table, so `grant_role`
and `revoke_role` on it always fail (with the invalid-role error when
the accounts involved are valid) and leave the state unchanged. -/
theorem create_empty_role_name (s : ACState) (caller ar : String) (now : Nat)
    (hreach : ACReach s) (hinit : s.is_initialized = true)
    (hcan : (can_administer_role s caller ar).1 = true)
    (hnew : role_exists s "" = false) :
    (create_role s caller "" (some ar) now).2.1 = true ∧
    role_exists (create_role s caller "" (some ar) now).1 "" = true ∧
    (∀ c a now2,
      (grant_role (create_role s caller "" (some ar) now).1 c "" a now2).1 =
        (create_role s caller "" (some ar) now).1 ∧
      (grant_role (create_role s caller "" (some ar) now).1 c "" a now2).2.1 = false ∧
      (c ≠ "" → a ≠ "" →
        (grant_role (create_role s caller "" (some ar) now).1 c "" a now2).2.2 =
          some INVALID_ROLE)) ∧
    (∀ c a now2,
      (revoke_role (create_role s caller "" (some ar) now).1 c "" a now2).1 =
        (create_role s caller "" (some ar) now).1 ∧
      (revoke_role (create_role s caller "" (some ar) now).1 c "" a now2).2.1 = false ∧
      (a ≠ "" →
        (revoke_role (create_role s caller "" (some ar) now).1 c "" a now2).2.2 =
          some INVALID_ROLE)) := by
  obtain ⟨_, harne, harex, hcne⟩ := can_administer_true_elim hcan
  have hvi : (validate_inputs s caller ar).1 = true :=
    (validate_inputs_true s caller ar).mpr ⟨hinit, hcne, harne, harex⟩
  have hsucc : create_role s caller "" (some ar) now =
      (log_role_update (role_created s "" ar) caller "RoleCreated" ""
        none (some ar) now, true, none) := by
    unfold create_role
    simp [hvi, hnew, hcan]
  have hroles : (create_role s caller "" (some ar) now).1.roles =
      tset s.roles (LuaKey.str "") true := by
    rw [hsucc]
    exact (log_role_update_fields _ _ _ _ _ _ _).2.1
  have hinit' : (create_role s caller "" (some ar) now).1.is_initialized = true := by
    rw [hsucc]
    rw [(log_role_update_fields _ _ _ _ _ _ _).1]
    exact hinit
  refine ⟨by rw [hsucc], ?_, ?_, ?_⟩
  · show roles_has (create_role s caller "" (some ar) now).1.roles "" = true
    rw [hroles, roles_has_tset]
    simp
  · intro c a now2
    obtain ⟨h1, h2, h3⟩ := grant_role_empty_role
      (create_role s caller "" (some ar) now).1 c a now2
    exact ⟨h1, h2, fun hc ha => h3 hinit' hc ha⟩
  · intro c a now2
    obtain ⟨h1, h2, h3⟩ := revoke_role_empty_role
      (create_role s caller "" (some ar) now).1 c a now2
    exact ⟨h1, h2, fun ha => h3 hinit' ha⟩

theorem mem_lookup_true_ne_empty {s : ACState} (h : WF s) {role a : String}
    (hm : mem_lookup s role a = true) : a ≠ "" := by
  intro hc
  subst hc
  rw [mem_lookup_ne_empty h] at hm
  cases hm

/-- C1: root-admin safety.  On every reachable initialized state in which
exactly one account holds the root role, revoking that account's root
role fails — with the invariant-violation error whenever the caller would
otherwise have been allowed (i.e. can administer the root role) — and the
state, membership included, is unchanged; renouncing it fails with the
invariant-violation error unconditionally. -/
theorem root_admin_safety (s : ACState) (a : String)
    (hreach : ACReach s) (hinit : s.is_initialized = true)
    (hcount : (get_role_member_count s DEFAULT_ADMIN_ROLE).1 = 1)
    (hmem : mem_lookup s DEFAULT_ADMIN_ROLE a = true) :
    (∀ c now,
      (revoke_role s c DEFAULT_ADMIN_ROLE a now).1 = s ∧
      (revoke_role s c DEFAULT_ADMIN_ROLE a now).2.1 = false ∧
      ((can_administer_role s c DEFAULT_ADMIN_ROLE).1 = true →
        (revoke_role s c DEFAULT_ADMIN_ROLE a now).2.2 =
          some CANNOT_REMOVE_LAST_ADMIN)) ∧
    (∀ now, renounce_role s a DEFAULT_ADMIN_ROLE now =
      (s, false, some CANNOT_REMOVE_LAST_ADMIN)) := by
  have hwf := reach_wf hreach
  have hane : a ≠ "" := mem_lookup_true_ne_empty hwf hmem
  have hrootne : DEFAULT_ADMIN_ROLE ≠ "" := by decide
  have hrootex : role_exists s DEFAULT_ADMIN_ROLE = true := hwf.root_declared hinit
  have hvi : (validate_inputs s a DEFAULT_ADMIN_ROLE).1 = true :=
    (validate_inputs_true _ _ _).mpr ⟨hinit, hane, hrootne, hrootex⟩
  have hhr : (has_role s a DEFAULT_ADMIN_ROLE).1 = true := by
    rw [has_role_eq_mem _ _ _ hvi]
    exact hmem
  have hwr : would_remove_last_admin s DEFAULT_ADMIN_ROLE a = true := by
    unfold would_remove_last_admin
    simp [hcount, hmem]
  constructor
  · intro c now
    unfold revoke_role
    by_cases hca : (can_administer_role s c DEFAULT_ADMIN_ROLE).1
    · exact ⟨by simp [hvi, hca, hhr, hwr], by simp [hvi, hca, hhr, hwr],
        fun _ => by simp [hvi, hca, hhr, hwr]⟩
    · exact ⟨by simp [hvi, hca], by simp [hvi, hca],
        fun hcontra => absurd hcontra (by simpa using hca)⟩
  · intro now
    unfold renounce_role
    simp [hvi, hhr, hwr]

/-- Witness for C1 at the state produced by `init("A", "A")`, whose only
root holder is "A". -/
theorem root_admin_safety_witness :
    (revoke_role (ac_run [ACOp.op_init "A" "A" false 0]) "A"
      DEFAULT_ADMIN_ROLE "A" 1).1 = ac_run [ACOp.op_init "A" "A" false 0] ∧
    (revoke_role (ac_run [ACOp.op_init "A" "A" false 0]) "A"
      DEFAULT_ADMIN_ROLE "A" 1).2.2 = some CANNOT_REMOVE_LAST_ADMIN ∧
    renounce_role (ac_run [ACOp.op_init "A" "A" false 0]) "A"
      DEFAULT_ADMIN_ROLE 1 =
      (ac_run [ACOp.op_init "A" "A" false 0], false,
       some CANNOT_REMOVE_LAST_ADMIN) :=
  have h := root_admin_safety (ac_run [ACOp.op_init "A" "A" false 0]) "A"
    ⟨[ACOp.op_init "A" "A" false 0], rfl⟩ (by decide) (by decide) (by decide)
  ⟨(h.1 "A" 1).1, (h.1 "A" 1).2.2 (by decide), h.2 1⟩

/-- C2: admin resolution.  On every reachable initialized state, for a
declared role `r` whose bound admin role is `ar`, a caller can administer
`r` exactly when it holds `ar` or holds the root role — a two-level
check, with no deeper walk of the admin chain; `only_role_admin` is
definitionally this same check, and a caller failing it cannot mutate
through `grant_role`, `revoke_role`, `set_role_admin`, or
`create_role` (with `r` as the new role's admin). -/
theorem admin_resolution (s : ACState) (r c ar : String)
    (hreach : ACReach s) (hinit : s.is_initialized = true)
    (hrne : r ≠ "") (hrex : role_exists s r = true)
    (har : sget s.role_admins r = some ar) :
    ((can_administer_role s c r).1 = true ↔
      (mem_lookup s ar c = true ∨ mem_lookup s DEFAULT_ADMIN_ROLE c = true)) ∧
    only_role_admin s c r = can_administer_role s c r ∧
    ((can_administer_role s c r).1 = false →
      (∀ a now, (grant_role s c r a now).1 = s ∧
        (grant_role s c r a now).2.1 = false) ∧
      (∀ a now, (revoke_role s c r a now).1 = s ∧
        (revoke_role s c r a now).2.1 = false) ∧
      (∀ ar2 now, (set_role_admin s c r ar2 now).1 = s ∧
        (set_role_admin s c r ar2 now).2.1 = false) ∧
      (∀ r2 now, (create_role s c r2 (some r) now).1 = s ∧
        (create_role s c r2 (some r) now).2.1 = false)) := by
  have hwf := reach_wf hreach
  obtain ⟨ar', hsga', hdecl', harne'⟩ := hwf.admin_defined r hrex
  have hareq : ar' = ar := Option.some.inj (hsga'.symm.trans har)
  rw [hareq] at hdecl' harne'
  have hga : get_role_admin s r = (some ar, none) := by
    unfold get_role_admin
    have h1 : (check_initialized s).1 = true := (check_initialized_true s).mpr hinit
    have h2 : (validate_role s r).1 = true := (validate_role_true s r).mpr ⟨hrne, hrex⟩
    simp [h1, h2, har]
  have hcan_eq : (can_administer_role s c r).1 =
      ((has_role s c ar).1 || (has_role s c DEFAULT_ADMIN_ROLE).1) := by
    rw [can_administer_char, hga]
  have hhr_ar : (has_role s c ar).1 = mem_lookup s ar c := by
    by_cases hc : c = ""
    · subst hc
      rw [has_role_empty_account, mem_lookup_ne_empty hwf]
    · exact has_role_eq_mem s c ar
        ((validate_inputs_true _ _ _).mpr ⟨hinit, hc, harne', hdecl'⟩)
  have hhr_root : (has_role s c DEFAULT_ADMIN_ROLE).1 =
      mem_lookup s DEFAULT_ADMIN_ROLE c := by
    by_cases hc : c = ""
    · subst hc
      rw [has_role_empty_account, mem_lookup_ne_empty hwf]
    · exact has_role_eq_mem s c _
        ((validate_inputs_true _ _ _).mpr
          ⟨hinit, hc, by decide, hwf.root_declared hinit⟩)
  refine ⟨?_, rfl, ?_⟩
  · rw [hcan_eq, hhr_ar, hhr_root]
    simp
  · intro hncan
    refine ⟨?_, ?_, ?_, ?_⟩
    · intro a now
      rcases grant_role_cases s c r a now with ⟨h1, h2⟩ | ⟨_, _, hca, _⟩
      · exact ⟨h1, h2⟩
      · simp [hca] at hncan
    · intro a now
      rcases revoke_role_cases s c r a now with ⟨h1, h2⟩ | ⟨_, hca, _⟩
      · exact ⟨h1, h2⟩
      · simp [hca] at hncan
    · intro ar2 now
      rcases set_role_admin_cases s c r ar2 now with ⟨h1, h2⟩ | ⟨hca, _⟩
      · exact ⟨h1, h2⟩
      · simp [hca] at hncan
    · intro r2 now
      rcases create_role_cases s c r2 (some r) now with ⟨h1, h2⟩ | ⟨_, _, hca, _⟩
      · exact ⟨h1, h2⟩
      · have hca' : (can_administer_role s c r).1 = true := hca
        simp [hca'] at hncan

/-- Witness for C2 after `init("A", "A")` and `create_role("A",
"EDITOR_ROLE")`, instantiated at the editor role, whose bound admin role
is the root role. -/
theorem admin_resolution_witness :
    ((can_administer_role
        (ac_run [ACOp.op_init "A" "A" false 0,
                 ACOp.op_create "A" "EDITOR_ROLE" none 1]) "A" "EDITOR_ROLE").1 = true ↔
      (mem_lookup
        (ac_run [ACOp.op_init "A" "A" false 0,
                 ACOp.op_create "A" "EDITOR_ROLE" none 1]) DEFAULT_ADMIN_ROLE "A" = true ∨
       mem_lookup
        (ac_run [ACOp.op_init "A" "A" false 0,
                 ACOp.op_create "A" "EDITOR_ROLE" none 1]) DEFAULT_ADMIN_ROLE "A" = true)) ∧
    only_role_admin
        (ac_run [ACOp.op_init "A" "A" false 0,
                 ACOp.op_create "A" "EDITOR_ROLE" none 1]) "A" "EDITOR_ROLE" =
      can_administer_role
        (ac_run [ACOp.op_init "A" "A" false 0,
                 ACOp.op_create "A" "EDITOR_ROLE" none 1]) "A" "EDITOR_ROLE" :=
  have h := admin_resolution
    (ac_run [ACOp.op_init "A" "A" false 0, ACOp.op_create "A" "EDITOR_ROLE" none 1])
    "EDITOR_ROLE" "A" DEFAULT_ADMIN_ROLE
    ⟨[ACOp.op_init "A" "A" false 0, ACOp.op_create "A" "EDITOR_ROLE" none 1], rfl⟩
    (by decide) (by decide) (by decide) (by decide)
  ⟨h.1, h.2.1⟩

theorem grant_role_success (s : ACState) (caller role a : String) (now : Nat)
    (hcne : caller ≠ "") (hvi : (validate_inputs s a role).1 = true)
    (hcan : (can_administer_role s caller role).1 = true)
    (hfr : mem_lookup s role a = false) :
    grant_role s caller role a now =
      (log_role_account (member_added s role a) caller "RoleGranted" role a now,
       true, none) := by
  unfold grant_role
  have hc : (validate_account caller).1 = true := (validate_account_true caller).mpr hcne
  have hh : (has_role s a role).1 = false := by
    rw [has_role_eq_mem s a role hvi]
    exact hfr
  simp [hc, hvi, hcan, hh]

theorem grant_role_empty_account (s : ACState) (caller role : String) (now : Nat)
    (hcne : caller ≠ "") (hinit : s.is_initialized = true) :
    grant_role s caller role "" now = (s, false, some INVALID_ACCOUNT) := by
  unfold grant_role
  have hc : (validate_account caller).1 = true := (validate_account_true caller).mpr hcne
  have hvi : validate_inputs s "" role = (false, some INVALID_ACCOUNT) := by
    unfold validate_inputs
    simp [check_initialized, hinit, validate_account]
  simp [hc, hvi]

theorem grant_step_fields (s : ACState) (caller role a : String) (now : Nat) :
    (log_role_account (member_added s role a) caller "RoleGranted" role a
      now).is_initialized = s.is_initialized ∧
    (log_role_account (member_added s role a) caller "RoleGranted" role a
      now).roles = s.roles ∧
    (log_role_account (member_added s role a) caller "RoleGranted" role a
      now).role_admins = s.role_admins ∧
    (log_role_account (member_added s role a) caller "RoleGranted" role a
      now).role_members = (member_added s role a).role_members := by
  obtain ⟨f1, f2, f3, f4⟩ :=
    log_role_account_fields (member_added s role a) caller "RoleGranted" role a now
  exact ⟨f1, f2, f4, f3⟩

/-- Behaviour of the `bulk_grant_role` loop on a distinct account list
where the valid accounts are fresh: per-account entries in input order,
the invalid-account error exactly for empty-string entries, success for
the rest, all valid accounts members afterwards, and no membership ever
dropped. -/
theorem bulk_loop_spec (caller role : String) (now : Nat) :
    ∀ (accounts : List String) (s : ACState), WF s →
      (can_administer_role s caller role).1 = true →
      accounts.Pairwise (fun x y => x ≠ y) →
      (∀ a ∈ accounts, a ≠ "" → mem_lookup s role a = false) →
      (bulk_loop caller role now s accounts).2 =
        accounts.map (fun a => if a = "" then
          (⟨a, false, some INVALID_ACCOUNT⟩ : BulkEntry) else ⟨a, true, none⟩) ∧
      (∀ a ∈ accounts, a ≠ "" →
        mem_lookup (bulk_loop caller role now s accounts).1 role a = true) ∧
      (∀ x y, mem_lookup s x y = true →
        mem_lookup (bulk_loop caller role now s accounts).1 x y = true) := by
  intro accounts
  induction accounts with
  | nil =>
      intro s hwf hcan hnd hfresh
      refine ⟨rfl, ?_, fun x y h => h⟩
      intro a ha
      cases ha
  | cons a rest ih =>
      intro s hwf hcan hnd hfresh
      obtain ⟨hinit, hrne, hrex, hcne⟩ := can_administer_true_elim hcan
      obtain ⟨hhead, htail⟩ := List.pairwise_cons.mp hnd
      have hloop_eq : bulk_loop caller role now s (a :: rest) =
          ((bulk_loop caller role now (grant_role s caller role a now).1 rest).1,
           (⟨a, (grant_role s caller role a now).2.1,
              (grant_role s caller role a now).2.2⟩ : BulkEntry) ::
             (bulk_loop caller role now (grant_role s caller role a now).1 rest).2) :=
        rfl
      by_cases ha : a = ""
      · subst ha
        have hg : grant_role s caller role "" now = (s, false, some INVALID_ACCOUNT) :=
          grant_role_empty_account s caller role now hcne hinit
        rw [hloop_eq, hg]
        obtain ⟨ih1, ih2, ih3⟩ := ih s hwf hcan htail
          (fun b hb hbne => hfresh b (List.mem_cons_of_mem _ hb) hbne)
        refine ⟨?_, ?_, ?_⟩
        · simp [ih1]
        · intro b hb hbne
          rcases List.mem_cons.mp hb with rfl | hb
          · exact absurd rfl hbne
          · exact ih2 b hb hbne
        · exact ih3
      · have hfr : mem_lookup s role a = false :=
          hfresh a (List.mem_cons_self _ _) ha
        have hvi : (validate_inputs s a role).1 = true :=
          (validate_inputs_true _ _ _).mpr ⟨hinit, ha, hrne, hrex⟩
        have hg := grant_role_success s caller role a now hcne hvi hcan hfr
        obtain ⟨f1, f2, f3, f4⟩ := grant_step_fields s caller role a now
        have hm1 : ∀ x y, mem_lookup (grant_role s caller role a now).1 x y =
            if role = x ∧ a = y then true else mem_lookup s x y := by
          intro x y
          rw [hg]
          rw [mem_lookup_congr f4, mem_lookup_member_added]
        have hwf1 : WF (grant_role s caller role a now).1 := wf_grant hwf caller role a now
        have hcan1 : (can_administer_role (grant_role s caller role a now).1
            caller role).1 = true := by
          apply can_administer_mono ?_ ?_ ?_ ?_ hcan
          · rw [hg]; exact f1
          · rw [hg]; exact f2
          · rw [hg]; exact f3
          · intro x y hxy
            rw [hm1]
            by_cases hc : role = x ∧ a = y
            · simp [hc]
            · simp [hc, hxy]
        have hfresh1 : ∀ b ∈ rest, b ≠ "" →
            mem_lookup (grant_role s caller role a now).1 role b = false := by
          intro b hb hbne
          rw [hm1]
          have hab : a ≠ b := hhead b hb
          have hcond : ¬ (role = role ∧ a = b) := fun hc => hab hc.2
          rw [if_neg hcond]
          exact hfresh b (List.mem_cons_of_mem _ hb) hbne
        obtain ⟨ih1, ih2, ih3⟩ :=
          ih (grant_role s caller role a now).1 hwf1 hcan1 htail hfresh1
        rw [hloop_eq]
        have hsucc1 : (grant_role s caller role a now).2.1 = true := by rw [hg]
        have hsucc2 : (grant_role s caller role a now).2.2 = none := by rw [hg]
        refine ⟨?_, ?_, ?_⟩
        · simp [ih1, ha, hsucc1, hsucc2]
        · intro b hb hbne
          rcases List.mem_cons.mp hb with rfl | hb
          · apply ih3
            rw [hm1]
            simp
          · exact ih2 b hb hbne
        · intro x y hxy
          apply ih3
          rw [hm1]
          by_cases hc : role = x ∧ a = y
          · simp [hc]
          · simp [hc, hxy]

/-- C7: bulk grant is per-item and never aborts.  On every reachable
state, with a caller that can administer the role and a list of pairwise
distinct accounts whose valid (non-empty) members do not yet hold the
role, `bulk_grant_role` returns overall success with a per-account result
list in input order — `success = false` with the invalid-account error
exactly for the empty-string entries, `success = true` for all others —
and every valid account holds the role afterwards. -/
theorem bulk_grant_per_item (s : ACState) (caller role : String)
    (accounts : List String) (now : Nat)
    (hreach : ACReach s)
    (hcan : (can_administer_role s caller role).1 = true)
    (hnd : accounts.Pairwise (fun x y => x ≠ y))
    (hfresh : ∀ a ∈ accounts, a ≠ "" → mem_lookup s role a = false) :
    (bulk_grant_role s caller role accounts now).2.1 = true ∧
    (bulk_grant_role s caller role accounts now).2.2.1 = none ∧
    (bulk_grant_role s caller role accounts now).2.2.2 =
      accounts.map (fun a => if a = "" then
        (⟨a, false, some INVALID_ACCOUNT⟩ : BulkEntry) else ⟨a, true, none⟩) ∧
    (∀ a ∈ accounts, a ≠ "" →
      mem_lookup (bulk_grant_role s caller role accounts now).1 role a = true) := by
  have hwf := reach_wf hreach
  obtain ⟨hinit, _, _, _⟩ := can_administer_true_elim hcan
  have hci : (check_initialized s).1 = true := (check_initialized_true s).mpr hinit
  obtain ⟨h1, h2, _⟩ := bulk_loop_spec caller role now accounts s hwf hcan hnd hfresh
  have hbg : bulk_grant_role s caller role accounts now =
      ((bulk_loop caller role now s accounts).1, true, none,
       (bulk_loop caller role now s accounts).2) := by
    unfold bulk_grant_role
    simp [hci]
  rw [hbg]
  exact ⟨rfl, rfl, h1, h2⟩

/-- Witness for C7: granting the root role to ["B", "", "C"] after
`init("A", "A")` reports failure only for the empty account and leaves
"B" and "C" holding the role. -/
theorem bulk_grant_per_item_witness :
    (bulk_grant_role (ac_run [ACOp.op_init "A" "A" false 0]) "A"
      DEFAULT_ADMIN_ROLE ["B", "", "C"] 1).2.1 = true ∧
    (bulk_grant_role (ac_run [ACOp.op_init "A" "A" false 0]) "A"
      DEFAULT_ADMIN_ROLE ["B", "", "C"] 1).2.2.2 =
      [⟨"B", true, none⟩, ⟨"", false, some INVALID_ACCOUNT⟩, ⟨"C", true, none⟩] ∧
    mem_lookup (bulk_grant_role (ac_run [ACOp.op_init "A" "A" false 0]) "A"
      DEFAULT_ADMIN_ROLE ["B", "", "C"] 1).1 DEFAULT_ADMIN_ROLE "B" = true ∧
    mem_lookup (bulk_grant_role (ac_run [ACOp.op_init "A" "A" false 0]) "A"
      DEFAULT_ADMIN_ROLE ["B", "", "C"] 1).1 DEFAULT_ADMIN_ROLE "C" = true :=
  have h := bulk_grant_per_item (ac_run [ACOp.op_init "A" "A" false 0]) "A"
    DEFAULT_ADMIN_ROLE ["B", "", "C"] 1
    ⟨[ACOp.op_init "A" "A" false 0], rfl⟩ (by decide) (by decide) (by decide)
  ⟨h.1, (h.2.2.1).trans (by decide),
   h.2.2.2 "B" (by decide) (by decide), h.2.2.2 "C" (by decide) (by decide)⟩

/-- Witness for C10's amended theorem after a concrete `init`. -/
theorem create_empty_role_name_witness :
    (create_role (ac_run [ACOp.op_init "A" "A" false 0]) "A" ""
      (some DEFAULT_ADMIN_ROLE) 1).2.1 = true ∧
    role_exists (create_role (ac_run [ACOp.op_init "A" "A" false 0]) "A" ""
      (some DEFAULT_ADMIN_ROLE) 1).1 "" = true :=
  have h := create_empty_role_name (ac_run [ACOp.op_init "A" "A" false 0])
    "A" DEFAULT_ADMIN_ROLE 1 ⟨[ACOp.op_init "A" "A" false 0], rfl⟩
    (by decide) (by decide) (by decide)
  ⟨h.1, h.2.1⟩

theorem reach_apply {s : ACState} (h : ACReach s) (op : ACOp) :
    ACReach (ac_apply s op) := by
  obtain ⟨ops, rfl⟩ := h
  refine ⟨ops ++ [op], ?_⟩
  simp [ac_run, List.foldl_append]

theorem grant_role_init (s : ACState) (c r a : String) (now : Nat) :
    (grant_role s c r a now).1.is_initialized = s.is_initialized := by
  rcases grant_role_cases s c r a now with ⟨h, _⟩ | ⟨_, _, _, _, h⟩
  · rw [h]
  · rw [h]
    exact (log_role_account_fields _ _ _ _ _ _).1

theorem revoke_role_init (s : ACState) (c r a : String) (now : Nat) :
    (revoke_role s c r a now).1.is_initialized = s.is_initialized := by
  rcases revoke_role_cases s c r a now with ⟨h, _⟩ | ⟨_, _, _, _, h⟩
  · rw [h]
  · rw [h]
    exact (log_role_account_fields _ _ _ _ _ _).1

/-- On a well-formed initialized state, `has_role` for a valid account
agrees with the raw store membership flag even for undeclared roles
(`has_role` then returns false, and the store has no member table). -/
theorem has_role_eq_mem_wf {s : ACState} (hwf : WF s)
    (hinit : s.is_initialized = true) {a : String} (ha : a ≠ "")
    (x : String) (hxne : x ≠ "") :
    (has_role s a x).1 = mem_lookup s x a := by
  by_cases hx : role_exists s x = true
  · exact has_role_eq_mem s a x
      ((validate_inputs_true _ _ _).mpr ⟨hinit, ha, hxne, hx⟩)
  · have h1 : (has_role s a x).1 = false := by
      rw [has_role_char]
      have hv : (validate_inputs s a x).1 = false := by
        by_contra hn
        exact hx ((validate_inputs_true _ _ _).mp (by simpa using hn)).2.2.2
      simp [hv]
    have h2 : mem_lookup s x a = false := by
      unfold mem_lookup
      cases hsg : sget s.role_members x with
      | none => rfl
      | some t =>
          exfalso
          apply hx
          rw [hwf.members_defined x, hsg]
          rfl
    rw [h1, h2]

end AccessControl

namespace Blog

open AccessControl

theorem reach_role_action {s : ACState} (h : ACReach s) (action : RoleAction)
    (from_addr role a : String) (now : Nat) :
    ACReach (apply_role_action action s from_addr role a now).1 := by
  cases action with
  | grant => exact reach_apply h (ACOp.op_grant from_addr role a now)
  | revoke => exact reach_apply h (ACOp.op_revoke from_addr role a now)

theorem role_action_init {s : ACState} (hinit : s.is_initialized = true)
    (action : RoleAction) (from_addr role a : String) (now : Nat) :
    (apply_role_action action s from_addr role a now).1.is_initialized = true := by
  cases action with
  | grant => rw [show apply_role_action RoleAction.grant s from_addr role a now =
      grant_role s from_addr role a now from rfl, grant_role_init]; exact hinit
  | revoke => rw [show apply_role_action RoleAction.revoke s from_addr role a now =
      revoke_role s from_addr role a now from rfl, revoke_role_init]; exact hinit

theorem get_wallet_roles_eq_spec {s : ACState} (hwf : WF s)
    (hinit : s.is_initialized = true) {a : String} (ha : a ≠ "") :
    get_wallet_roles_for_registry s a = spec_snapshot s a := by
  unfold get_wallet_roles_for_registry spec_snapshot
  rw [has_role_eq_mem_wf hwf hinit ha DEFAULT_ADMIN_ROLE (by decide),
      has_role_eq_mem_wf hwf hinit ha EDITOR_ROLE (by decide)]
  by_cases hA : mem_lookup s DEFAULT_ADMIN_ROLE a <;>
    by_cases hE : mem_lookup s EDITOR_ROLE a <;> simp [hA, hE]

/-- C4: the sync push rule.  In the BLOG_CONTRACT role-update loop, with
a configured registry process, the emitted registry messages are exactly
those of the specification-side function: per successful mutation one
message carrying the account's full current snapshot (upsert when
non-empty, remove when empty), and none for failed or invalid accounts. -/
theorem sync_push_rule (s : ACState) (target from_addr role : String)
    (action : RoleAction) (accounts : List String) (now : Nat)
    (hreach : ACReach s) (hinit : s.is_initialized = true)
    (htarget : target ≠ YOUR_REGISTRY) :
    ((ur_loop (some target) action from_addr role now s accounts).2.2 =
      registry_push_spec target action from_addr role now s accounts) ∧
    ((only_role s from_addr DEFAULT_ADMIN_ROLE).1 = true → accounts ≠ [] →
      (update_roles (some target) s from_addr action role (some accounts)
        now).2.2.2.2 =
        registry_push_spec target action from_addr role now s accounts) := by
  have hcore : (ur_loop (some target) action from_addr role now s accounts).2.2 =
      registry_push_spec target action from_addr role now s accounts := by
    induction accounts generalizing s with
    | nil => rfl
    | cons a rest ih =>
        by_cases ha : a = ""
        · subst ha
          have himpl : (ur_loop (some target) action from_addr role now s ("" :: rest)).2.2 =
              (ur_loop (some target) action from_addr role now s rest).2.2 := rfl
          have hspec : registry_push_spec target action from_addr role now s ("" :: rest) =
              registry_push_spec target action from_addr role now s rest := rfl
          rw [himpl, hspec]
          exact ih s hreach hinit
        · have hreach1 := reach_role_action hreach action from_addr role a now
          have hinit1 := role_action_init hinit action from_addr role a now
          have hwf1 := reach_wf hreach1
          have himpl : (ur_loop (some target) action from_addr role now s (a :: rest)).2.2 =
              (if (apply_role_action action s from_addr role a now).2.1 then
                (let roles := get_wallet_roles_for_registry
                    (apply_role_action action s from_addr role a now).1 a
                 if roles.length > 0 then sync_wallet_to_registry (some target) a roles
                 else remove_wallet_from_registry (some target) a)
               else []) ++
              (ur_loop (some target) action from_addr role now
                (apply_role_action action s from_addr role a now).1 rest).2.2 := by
            show (ur_loop (some target) action from_addr role now s (a :: rest)).2.2 = _
            rw [show ur_loop (some target) action from_addr role now s (a :: rest) =
              (if a = "" then
                (let w := ur_loop (some target) action from_addr role now s rest
                 (w.1, (⟨a, false, some INVALID_ACCOUNT⟩ : URItem) :: w.2.1, w.2.2))
               else
                (let r := apply_role_action action s from_addr role a now
                 let msgs_a :=
                   if r.2.1 then
                     let roles := get_wallet_roles_for_registry r.1 a
                     if roles.length > 0 then sync_wallet_to_registry (some target) a roles
                     else remove_wallet_from_registry (some target) a
                   else []
                 let w := ur_loop (some target) action from_addr role now r.1 rest
                 (w.1, (⟨a, r.2.1, r.2.2⟩ : URItem) :: w.2.1, msgs_a ++ w.2.2)))
              from rfl]
            rw [if_neg ha]
          have hspec : registry_push_spec target action from_addr role now s (a :: rest) =
              (if (apply_role_action action s from_addr role a now).2.1 then
                (let snap := spec_snapshot
                    (apply_role_action action s from_addr role a now).1 a
                 if snap.isEmpty then [RegMsg.remove_perm target a]
                 else [RegMsg.register_perm target a snap])
               else []) ++
              registry_push_spec target action from_addr role now
                (apply_role_action action s from_addr role a now).1 rest := by
            show registry_push_spec target action from_addr role now s (a :: rest) = _
            rw [show registry_push_spec target action from_addr role now s (a :: rest) =
              (if a = "" then registry_push_spec target action from_addr role now s rest
               else
                (let r := apply_role_action action s from_addr role a now
                 (if r.2.1 then
                   (let snap := spec_snapshot r.1 a
                    if snap.isEmpty then [RegMsg.remove_perm target a]
                    else [RegMsg.register_perm target a snap])
                  else []) ++ registry_push_spec target action from_addr role now r.1 rest))
              from rfl]
            rw [if_neg ha]
          rw [himpl, hspec, ih _ hreach1 hinit1]
          congr 1
          by_cases hsucc : (apply_role_action action s from_addr role a now).2.1
          · rw [if_pos hsucc, if_pos hsucc]
            rw [get_wallet_roles_eq_spec hwf1 hinit1 ha]
            by_cases hemp : (spec_snapshot
                (apply_role_action action s from_addr role a now).1 a).isEmpty
            · have hlen : ¬ (spec_snapshot
                  (apply_role_action action s from_addr role a now).1 a).length > 0 := by
                rw [List.isEmpty_iff] at hemp
                simp [hemp]
              simp only [hlen, if_neg hlen, if_pos hemp]
              simp [remove_wallet_from_registry, htarget]
            · have hlen : (spec_snapshot
                  (apply_role_action action s from_addr role a now).1 a).length > 0 := by
                cases hsn : spec_snapshot
                    (apply_role_action action s from_addr role a now).1 a with
                | nil => rw [hsn] at hemp; simp [List.isEmpty] at hemp
                | cons x xs => simp
              simp only [if_pos hlen, if_neg hemp]
              simp [sync_wallet_to_registry, htarget]
          · rw [if_neg hsucc, if_neg hsucc]
  refine ⟨hcore, fun hia hne => ?_⟩
  unfold update_roles
  have hne2 : accounts.isEmpty = false := by
    cases accounts with
    | nil => exact absurd rfl hne
    | cons x xs => rfl
  simp only [hia, hne2, Bool.not_true, Bool.false_eq_true, if_false]
  exact hcore

/-- Witness for C4: one successful grant of the root role to "B" emits
exactly the specified upsert. -/
theorem sync_push_rule_witness :
    (ur_loop (some "REGISTRY") RoleAction.grant "A" DEFAULT_ADMIN_ROLE 1
      (ac_run [ACOp.op_init "A" "A" false 0]) ["B"]).2.2 =
      registry_push_spec "REGISTRY" RoleAction.grant "A" DEFAULT_ADMIN_ROLE 1
        (ac_run [ACOp.op_init "A" "A" false 0]) ["B"] ∧
    (update_roles (some "REGISTRY") (ac_run [ACOp.op_init "A" "A" false 0]) "A"
      RoleAction.grant DEFAULT_ADMIN_ROLE (some ["B"]) 1).2.2.2.2 =
      registry_push_spec "REGISTRY" RoleAction.grant "A" DEFAULT_ADMIN_ROLE 1
        (ac_run [ACOp.op_init "A" "A" false 0]) ["B"] :=
  have h := sync_push_rule (ac_run [ACOp.op_init "A" "A" false 0]) "REGISTRY" "A"
    DEFAULT_ADMIN_ROLE RoleAction.grant ["B"] 1
    ⟨[ACOp.op_init "A" "A" false 0], rfl⟩ (by decide) (by decide)
  ⟨h.1, h.2 (by decide) (by decide)⟩

/-- C9: in every blog-process state the Get-Admins handler replies with
the member list of EDITOR_ROLE, producing exactly the same reply as
Get-Editors; and no handler passes DEFAULT_ADMIN_ROLE to the member-list
helper, so none returns the root role's member list. -/
theorem get_admins_returns_editors :
    (∀ s, get_admins_reply s = get_editors_reply s) ∧
    (∀ s, get_admins_reply s = get_role_members_handler s EDITOR_ROLE) ∧
    (∀ p ∈ member_list_handler_roles, p.2 = EDITOR_ROLE ∧ p.2 ≠ DEFAULT_ADMIN_ROLE) := by
  refine ⟨fun s => rfl, fun s => rfl, ?_⟩
  intro p hp
  rcases List.mem_cons.mp hp with rfl | hp
  · exact ⟨rfl, by decide⟩
  · rcases List.mem_cons.mp hp with rfl | hp
    · exact ⟨rfl, by decide⟩
    · cases hp

end Blog

end Inkwell
